import Mathlib

/-!
# Verification of the EmTechScan external-OCR core (`src/emtechscan.py`)

This file gives a shallow embedding of the `ExternalOCREngine` class of
`src/emtechscan.py` and settles the frozen claims about it.

Two layers are modelled:

* the image-normalization pipeline `_preprocess_image` (grayscale blur,
  Otsu binarization, deskew via minimum-area rectangle and a cubic-interpolated
  affine rotation), embedded as pure functions over an `Img` matrix of
  8-bit intensities; the OpenCV primitives it calls (`GaussianBlur`,
  `threshold(..., THRESH_BINARY+THRESH_OTSU)`, `minAreaRect`,
  `getRotationMatrix2D`, `invertAffineTransform`, `warpAffine` with
  `INTER_CUBIC` and `BORDER_REPLICATE`) are modelled from their documented
  algorithms in exact rational arithmetic;
* the dispatcher `recognize`, embedded as a function of the engine spec and
  an environment oracle describing the outside world (PATH lookup, image
  decodability, subprocess behaviour, file contents, deletion outcomes),
  returning the Python-level outcome together with a trace of the
  filesystem/process events the call performs.

Machine rationals (`double` in OpenCV) are modelled as exact fractions.
Because `Rat`'s kernel reduction is blocked by `Nat.gcd`, we use our own
fraction type `Fr` (integer numerator, positive integer denominator,
reduced with a fuel-based Euclidean gcd that the kernel can evaluate),
with a valuation `Fr.val : Fr → ℚ` used for the symbolic proofs.
-/

/-- An exact fraction: integer numerator over an (intended positive) integer
denominator; every operation is kernel-reducible. -/
structure Fr where
  num : Int
  den : Int
deriving DecidableEq, Repr

/-- The rational value of a fraction. -/
def Fr.val (a : Fr) : ℚ := (a.num : ℚ) / (a.den : ℚ)

/-- Denominator positivity; every `Fr` built by the model satisfies it. -/
def Fr.Pos (a : Fr) : Prop := 0 < a.den

def frOfInt (n : Int) : Fr := ⟨n, 1⟩

def frOfNat (n : Nat) : Fr := ⟨(n : Int), 1⟩

def frZero : Fr := ⟨0, 1⟩

def frOne : Fr := ⟨1, 1⟩

/-- Euclidean gcd with explicit fuel, so that the kernel can reduce it
(`Nat.gcd` itself is defined by well-founded recursion and does not
kernel-reduce). With fuel above the first argument it equals `Nat.gcd`. -/
def gcdF : Nat → Nat → Nat → Nat
  | 0, _, b => b
  | fuel + 1, a, b => if a = 0 then b else gcdF fuel (b % a) a

theorem gcdF_eq (fuel a b : Nat) (h : a < fuel) : gcdF fuel a b = Nat.gcd a b := by
  induction fuel generalizing a b with
  | zero => omega
  | succ n ih =>
    unfold gcdF
    by_cases h0 : a = 0
    · simp [h0]
    · simp only [h0, if_false]
      rw [ih (b % a) a (by have := Nat.mod_lt b (show 0 < a by omega); omega)]
      exact (Nat.gcd_rec a b).symm

/-- Reduce a fraction by the gcd of numerator and denominator. Purely a
change of representative: the value is preserved (`Fr.val_norm`). -/
def frNorm (x : Fr) : Fr :=
  let g : Int := ((gcdF (x.num.natAbs + 1) x.num.natAbs x.den.toNat : Nat) : Int)
  if g ≤ 1 then x else ⟨x.num / g, x.den / g⟩

def frAddR (a b : Fr) : Fr := ⟨a.num * b.den + b.num * a.den, a.den * b.den⟩

def frSubR (a b : Fr) : Fr := ⟨a.num * b.den - b.num * a.den, a.den * b.den⟩

def frMulR (a b : Fr) : Fr := ⟨a.num * b.num, a.den * b.den⟩

def frAdd (a b : Fr) : Fr := frNorm (frAddR a b)

def frSub (a b : Fr) : Fr := frNorm (frSubR a b)

def frMul (a b : Fr) : Fr := frNorm (frMulR a b)

def frNeg (a : Fr) : Fr := ⟨-a.num, a.den⟩

def frAbs (a : Fr) : Fr := ⟨|a.num|, a.den⟩

/-- Division (before reduction); division by a zero value yields zero (as
in `ℚ`, and matching OpenCV's explicit `D != 0 ? 1/D : 0` guard where it
is used). -/
def frDivR (a b : Fr) : Fr :=
  if 0 < b.num then ⟨a.num * b.den, a.den * b.num⟩
  else if b.num < 0 then ⟨-(a.num * b.den), a.den * (-b.num)⟩
  else frZero

def frDiv (a b : Fr) : Fr := frNorm (frDivR a b)

/-- Strict order on fractions (valid for positive denominators). -/
def frLt (a b : Fr) : Bool := a.num * b.den < b.num * a.den

def frLe (a b : Fr) : Bool := a.num * b.den ≤ b.num * a.den

def frMin (a b : Fr) : Fr := if frLt a b then a else b

def frMax (a b : Fr) : Fr := if frLt a b then b else a

/-- Floor of a fraction (for positive denominators, `Int` division is
floor division). -/
def frFloor (a : Fr) : Int := a.num / a.den

theorem Fr.pos_ofInt (n : Int) : (frOfInt n).Pos := by simp [frOfInt, Fr.Pos]

theorem Fr.pos_ofNat (n : Nat) : (frOfNat n).Pos := by simp [frOfNat, Fr.Pos]

theorem Fr.pos_zero : frZero.Pos := by simp [frZero, Fr.Pos]

theorem Fr.pos_one : frOne.Pos := by simp [frOne, Fr.Pos]

theorem Fr.gcd_int_dvd (x : Fr) (hx : x.Pos) :
    ((((gcdF (x.num.natAbs + 1) x.num.natAbs x.den.toNat : Nat) : Int)) ∣ x.num) ∧
      ((((gcdF (x.num.natAbs + 1) x.num.natAbs x.den.toNat : Nat) : Int)) ∣ x.den) := by
  rw [gcdF_eq _ _ _ (Nat.lt_succ_self _)]
  constructor
  · exact dvd_trans (Int.natCast_dvd_natCast.mpr (Nat.gcd_dvd_left _ _))
      (Int.natAbs_dvd.mpr dvd_rfl)
  · have h := Int.natCast_dvd_natCast.mpr (Nat.gcd_dvd_right x.num.natAbs x.den.toNat)
    rwa [Int.toNat_of_nonneg (le_of_lt hx)] at h

theorem Fr.pos_norm {x : Fr} (hx : x.Pos) : (frNorm x).Pos := by
  unfold frNorm
  simp only
  split
  · exact hx
  · rename_i hg
    obtain ⟨-, hden⟩ := Fr.gcd_int_dvd x hx
    obtain ⟨k, hk⟩ := hden
    set g : Int := (((gcdF (x.num.natAbs + 1) x.num.natAbs x.den.toNat : Nat) : Int)) with hgdef
    have hgpos : (0 : Int) < g := by omega
    have hkpos : (0 : Int) < k := by
      by_contra hle
      push_neg at hle
      have : x.den ≤ 0 := by calc x.den = g * k := hk
        _ ≤ 0 := mul_nonpos_of_nonneg_of_nonpos (le_of_lt hgpos) hle
      exact absurd hx (by simp [Fr.Pos]; omega)
    show 0 < x.den / g
    rw [hk, Int.mul_ediv_cancel_left _ (ne_of_gt hgpos)]
    exact hkpos

theorem Fr.val_norm {x : Fr} (hx : x.Pos) : (frNorm x).val = x.val := by
  unfold frNorm
  simp only
  split
  · rfl
  · rename_i hg
    obtain ⟨hnum, hden⟩ := Fr.gcd_int_dvd x hx
    obtain ⟨k, hk⟩ := hden
    obtain ⟨m, hm⟩ := hnum
    set g : Int := (((gcdF (x.num.natAbs + 1) x.num.natAbs x.den.toNat : Nat) : Int)) with hgdef
    have hgpos : (0 : Int) < g := by omega
    unfold Fr.val
    simp only [hk, hm, Int.mul_ediv_cancel_left _ (ne_of_gt hgpos)]
    have hgq : ((g : ℚ)) ≠ 0 := by exact_mod_cast ne_of_gt hgpos
    push_cast
    rw [mul_div_mul_left _ _ hgq]

theorem Fr.pos_addR {a b : Fr} (ha : a.Pos) (hb : b.Pos) : (frAddR a b).Pos :=
  mul_pos ha hb

theorem Fr.pos_subR {a b : Fr} (ha : a.Pos) (hb : b.Pos) : (frSubR a b).Pos :=
  mul_pos ha hb

theorem Fr.pos_mulR {a b : Fr} (ha : a.Pos) (hb : b.Pos) : (frMulR a b).Pos :=
  mul_pos ha hb

theorem Fr.pos_divR {a b : Fr} (ha : a.Pos) : (frDivR a b).Pos := by
  unfold frDivR
  split
  · exact mul_pos ha (by assumption)
  · split
    · exact mul_pos ha (by simp; omega)
    · exact Fr.pos_zero

theorem Fr.pos_add {a b : Fr} (ha : a.Pos) (hb : b.Pos) : (frAdd a b).Pos :=
  Fr.pos_norm (Fr.pos_addR ha hb)

theorem Fr.pos_sub {a b : Fr} (ha : a.Pos) (hb : b.Pos) : (frSub a b).Pos :=
  Fr.pos_norm (Fr.pos_subR ha hb)

theorem Fr.pos_mul {a b : Fr} (ha : a.Pos) (hb : b.Pos) : (frMul a b).Pos :=
  Fr.pos_norm (Fr.pos_mulR ha hb)

theorem Fr.pos_neg {a : Fr} (ha : a.Pos) : (frNeg a).Pos := ha

theorem Fr.pos_abs {a : Fr} (ha : a.Pos) : (frAbs a).Pos := ha

theorem Fr.pos_div {a b : Fr} (ha : a.Pos) : (frDiv a b).Pos :=
  Fr.pos_norm (Fr.pos_divR ha)

theorem Fr.pos_min {a b : Fr} (ha : a.Pos) (hb : b.Pos) : (frMin a b).Pos := by
  unfold frMin; split <;> assumption

theorem Fr.pos_max {a b : Fr} (ha : a.Pos) (hb : b.Pos) : (frMax a b).Pos := by
  unfold frMax; split <;> assumption

theorem Fr.val_ofInt (n : Int) : (frOfInt n).val = (n : ℚ) := by
  simp [frOfInt, Fr.val]

theorem Fr.val_ofNat (n : Nat) : (frOfNat n).val = (n : ℚ) := by
  simp [frOfNat, Fr.val]

theorem Fr.val_zero : frZero.val = 0 := by simp [frZero, Fr.val]

theorem Fr.val_one : frOne.val = 1 := by simp [frOne, Fr.val]

theorem Fr.den_ne {a : Fr} (ha : a.Pos) : ((a.den : ℚ)) ≠ 0 := by
  have : (0 : ℚ) < (a.den : ℚ) := by exact_mod_cast ha
  exact ne_of_gt this

theorem Fr.val_addR {a b : Fr} (ha : a.Pos) (hb : b.Pos) :
    (frAddR a b).val = a.val + b.val := by
  unfold frAddR Fr.val
  have h1 := Fr.den_ne ha
  have h2 := Fr.den_ne hb
  field_simp

theorem Fr.val_subR {a b : Fr} (ha : a.Pos) (hb : b.Pos) :
    (frSubR a b).val = a.val - b.val := by
  unfold frSubR Fr.val
  have h1 := Fr.den_ne ha
  have h2 := Fr.den_ne hb
  field_simp
  ring

theorem Fr.val_mulR {a b : Fr} (ha : a.Pos) (hb : b.Pos) :
    (frMulR a b).val = a.val * b.val := by
  unfold frMulR Fr.val
  have h1 := Fr.den_ne ha
  have h2 := Fr.den_ne hb
  field_simp

theorem Fr.val_divR {a b : Fr} (ha : a.Pos) (hb : b.Pos) :
    (frDivR a b).val = a.val / b.val := by
  unfold frDivR Fr.val
  have h1 := Fr.den_ne ha
  have h2 := Fr.den_ne hb
  split
  · rename_i h
    have hb0 : ((b.num : ℚ)) ≠ 0 := by exact_mod_cast ne_of_gt h
    field_simp
  · split
    · rename_i h
      have hb0 : ((b.num : ℚ)) ≠ 0 := by exact_mod_cast ne_of_lt h
      field_simp
    · rename_i h1' h2'
      have hb0 : b.num = 0 := by omega
      simp [frZero, hb0]

theorem Fr.val_add {a b : Fr} (ha : a.Pos) (hb : b.Pos) :
    (frAdd a b).val = a.val + b.val :=
  (Fr.val_norm (Fr.pos_addR ha hb)).trans (Fr.val_addR ha hb)

theorem Fr.val_sub {a b : Fr} (ha : a.Pos) (hb : b.Pos) :
    (frSub a b).val = a.val - b.val :=
  (Fr.val_norm (Fr.pos_subR ha hb)).trans (Fr.val_subR ha hb)

theorem Fr.val_mul {a b : Fr} (ha : a.Pos) (hb : b.Pos) :
    (frMul a b).val = a.val * b.val :=
  (Fr.val_norm (Fr.pos_mulR ha hb)).trans (Fr.val_mulR ha hb)

theorem Fr.val_neg (a : Fr) : (frNeg a).val = -a.val := by
  unfold frNeg Fr.val
  push_cast
  ring

theorem Fr.val_abs {a : Fr} (ha : a.Pos) : (frAbs a).val = |a.val| := by
  unfold frAbs Fr.val
  rw [abs_div]
  have : |(a.den : ℚ)| = (a.den : ℚ) := abs_of_pos (by exact_mod_cast ha)
  rw [this]
  push_cast
  ring

theorem Fr.val_div {a b : Fr} (ha : a.Pos) (hb : b.Pos) :
    (frDiv a b).val = a.val / b.val :=
  (Fr.val_norm (Fr.pos_divR ha)).trans (Fr.val_divR ha hb)
theorem Fr.lt_iff {a b : Fr} (ha : a.Pos) (hb : b.Pos) :
    frLt a b = true ↔ a.val < b.val := by
  unfold frLt Fr.val
  rw [div_lt_div_iff (by exact_mod_cast ha) (by exact_mod_cast hb)]
  rw [decide_eq_true_eq]
  constructor
  · intro h; exact_mod_cast h
  · intro h; exact_mod_cast h

theorem Fr.le_iff {a b : Fr} (ha : a.Pos) (hb : b.Pos) :
    frLe a b = true ↔ a.val ≤ b.val := by
  unfold frLe Fr.val
  rw [div_le_div_iff (by exact_mod_cast ha) (by exact_mod_cast hb)]
  rw [decide_eq_true_eq]
  constructor
  · intro h; exact_mod_cast h
  · intro h; exact_mod_cast h

theorem Fr.floor_eq {a : Fr} (ha : a.Pos) : frFloor a = ⌊a.val⌋ := by
  have hd : (0 : Int) < a.den := ha
  unfold frFloor Fr.val
  rcases Int.eq_ofNat_of_zero_le (le_of_lt hd) with ⟨n, hn⟩
  rw [hn]
  rw [show (((n : Int) : ℚ)) = ((n : ℚ)) by push_cast; ring]
  exact (Rat.floor_intCast_div_natCast a.num n).symm

/-!
## Python string and bytes helpers

`str.strip()`, UTF-8 decoding with the `ignore` error handler (as in
`open(out_path, "r", encoding="utf-8", errors="ignore")`), the `replace`
error handler (used only to state what the spec asserts, for comparison),
and universal-newline translation done by Python text-mode reads.
-/

/-- Python whitespace characters stripped by `str.strip()` (ASCII range). -/
def pySpace (c : Char) : Bool :=
  c = ' ' || c = '\t' || c = '\n' || c = '\r' || c = Char.ofNat 11 || c = Char.ofNat 12

/-- Model of Python `str.strip()`: remove leading and trailing whitespace. -/
def pyStrip (s : String) : String :=
  String.mk (((s.data.dropWhile pySpace).reverse.dropWhile pySpace).reverse)

/-- Is `b` a UTF-8 continuation byte? -/
def utf8Cont (b : Nat) : Bool := 0x80 ≤ b && b < 0xC0

/-- Valid first continuation byte after a 3-byte leader (excludes overlong
encodings and surrogates, as Python does). -/
def utf8Cont3 (b c : Nat) : Bool :=
  if b = 0xE0 then 0xA0 ≤ c && c ≤ 0xBF
  else if b = 0xED then 0x80 ≤ c && c ≤ 0x9F
  else utf8Cont c

/-- Valid first continuation byte after a 4-byte leader. -/
def utf8Cont4 (b c : Nat) : Bool :=
  if b = 0xF0 then 0x90 ≤ c && c ≤ 0xBF
  else if b = 0xF4 then 0x80 ≤ c && c ≤ 0x8F
  else utf8Cont c

/-- What a malformed sequence contributes: nothing under `ignore`, one
U+FFFD replacement character under `replace`. -/
def utf8Bad (repl : Bool) : List Char := if repl then [Char.ofNat 0xFFFD] else []

/-- Fuel-indexed UTF-8 decoder with Python error-handler semantics: a
malformed sequence consumes its maximal valid prefix (at least one byte)
and contributes `utf8Bad repl`. Fuel only makes the recursion structural;
it is always called with enough fuel to consume the whole list. -/
def utf8Run (repl : Bool) : Nat → List Nat → List Char
  | 0, _ => []
  | _ + 1, [] => []
  | fuel + 1, b :: rest =>
    if b < 0x80 then Char.ofNat b :: utf8Run repl fuel rest
    else if 0xC2 ≤ b && b ≤ 0xDF then
      match rest with
      | c :: rest2 =>
        if utf8Cont c then
          Char.ofNat ((b - 0xC0) * 0x40 + (c - 0x80)) :: utf8Run repl fuel rest2
        else utf8Bad repl ++ utf8Run repl fuel rest
      | [] => utf8Bad repl
    else if 0xE0 ≤ b && b ≤ 0xEF then
      match rest with
      | c :: rest2 =>
        if utf8Cont3 b c then
          match rest2 with
          | d :: rest3 =>
            if utf8Cont d then
              Char.ofNat ((b - 0xE0) * 0x1000 + (c - 0x80) * 0x40 + (d - 0x80)) ::
                utf8Run repl fuel rest3
            else utf8Bad repl ++ utf8Run repl fuel rest2
          | [] => utf8Bad repl
        else utf8Bad repl ++ utf8Run repl fuel rest
      | [] => utf8Bad repl
    else if 0xF0 ≤ b && b ≤ 0xF4 then
      match rest with
      | c :: rest2 =>
        if utf8Cont4 b c then
          match rest2 with
          | d :: rest3 =>
            if utf8Cont d then
              match rest3 with
              | e :: rest4 =>
                if utf8Cont e then
                  Char.ofNat
                      ((b - 0xF0) * 0x40000 + (c - 0x80) * 0x1000 +
                        (d - 0x80) * 0x40 + (e - 0x80)) ::
                    utf8Run repl fuel rest4
                else utf8Bad repl ++ utf8Run repl fuel rest3
              | [] => utf8Bad repl
            else utf8Bad repl ++ utf8Run repl fuel rest2
          | [] => utf8Bad repl
        else utf8Bad repl ++ utf8Run repl fuel rest
      | [] => utf8Bad repl
    else utf8Bad repl ++ utf8Run repl fuel rest

/-- UTF-8 decoding with `errors="ignore"`: malformed byte sequences are
dropped. This is what the source passes to `open`. -/
def utf8DecodeIgnore (bs : List Nat) : List Char := utf8Run false (bs.length + 1) bs

/-- Modelled from the spec: UTF-8 decoding with the `replace` handler the
spec describes ("malformed byte sequences are replaced rather than
raising"); malformed sequences become U+FFFD. Stated only to compare the
spec's wording with the source's `errors="ignore"`. -/
def utf8DecodeReplace (bs : List Nat) : List Char := utf8Run true (bs.length + 1) bs

/-- Universal-newline translation performed by Python text-mode file reads:
CRLF and lone CR both become LF. -/
def pyNewlines : List Char → List Char
  | [] => []
  | '\r' :: '\n' :: rest => '\n' :: pyNewlines rest
  | '\r' :: rest => '\n' :: pyNewlines rest
  | c :: rest => c :: pyNewlines rest

/-- Reading the cuneiform output file as text: UTF-8 with `errors="ignore"`
plus universal-newline translation. -/
def pyReadText (bs : List Nat) : String :=
  String.mk (pyNewlines (utf8DecodeIgnore bs))

/-!
## The dispatcher `ExternalOCREngine.recognize`

The environment oracle `OcrEnv` fixes everything the outside world decides
during one call: whether `shutil.which(self.engine)` resolves, whether
`cv2.imread` decodes the source image, the names `tempfile.mkstemp` hands
out, whether `subprocess.run` raises or returns (and with what streams and
exit code), the bytes found in the cuneiform output file, and whether each
`os.remove` succeeds. `recognize` returns the Python-level outcome plus
the ordered trace of filesystem/process events the call performed.
-/

/-- The engine selection carried by `ExternalOCREngine` (`self.engine`,
`self.language`). -/
structure EngineSpec where
  engine : String
  language : String
deriving DecidableEq, Repr

/-- The Python exceptions `recognize` can raise: `FileNotFoundError` from
the availability check, `ValueError("Invalid image file")` from
`_preprocess_image`, `ValueError("Unsupported engine: ...")` from the
dispatch, and an `OSError`-family failure escaping `subprocess.run`. -/
inductive PyErr where
  | engineNotFound : PyErr
  | invalidImage : PyErr
  | unsupportedEngine : PyErr
  | procFailure : PyErr
deriving DecidableEq, Repr

/-- A completed `subprocess.run` result (text mode). -/
structure ProcOut where
  stdout : String
  stderr : String
  returncode : Int
deriving DecidableEq, Repr

/-- Observable filesystem and process events of one `recognize` call.
`removeTry p ok` records an `os.remove(p)` attempt and whether it
succeeded (`ok = false` means it raised `OSError`, which the source
swallows). -/
inductive Ev where
  | preprocessRun : Ev
  | mkstempPng : String → Ev
  | mkstempTxt : String → Ev
  | spawn : List String → Ev
  | readOutFile : String → Ev
  | removeTry : String → Bool → Ev
deriving DecidableEq, Repr

/-- Environment oracle for one `recognize` call. -/
structure OcrEnv where
  whichFound : Bool
  decodeOk : Bool
  tmpPng : String
  tmpTxt : String
  spawnResult : Except Unit ProcOut
  outBytes : List Nat
  removeOk : String → Bool

/-- Outcome of one `recognize` call: the returned value or raised
exception, and the event trace. -/
structure RecOutcome where
  result : Except PyErr String
  trace : List Ev

/-- Shallow embedding of `ExternalOCREngine.recognize`: availability check,
preprocessing and temp-PNG creation via `_save_temp_png`, per-engine
dispatch (gocr reads stdout, cuneiform reads a second temp file), with the
temp PNG removed in a `finally` block and all removal failures swallowed. -/
def recognize (self : EngineSpec) (_img_path : String) (env : OcrEnv) : RecOutcome :=
  if env.whichFound = false then
    { result := .error .engineNotFound, trace := [] }
  else if env.decodeOk = false then
    { result := .error .invalidImage, trace := [.preprocessRun] }
  else
    let setup : List Ev := [.preprocessRun, .mkstempPng env.tmpPng]
    let fin : List Ev := [.removeTry env.tmpPng (env.removeOk env.tmpPng)]
    if self.engine = "gocr" then
      match env.spawnResult with
      | .error _ =>
        { result := .error .procFailure,
          trace := setup ++ [.spawn [self.engine, env.tmpPng]] ++ fin }
      | .ok p =>
        { result := .ok (pyStrip p.stdout),
          trace := setup ++ [.spawn [self.engine, env.tmpPng]] ++ fin }
    else if self.engine = "cuneiform" then
      let cmd := [self.engine, "-l", self.language, "-f", "text", "-o", env.tmpTxt, env.tmpPng]
      match env.spawnResult with
      | .error _ =>
        { result := .error .procFailure,
          trace := setup ++ [.mkstempTxt env.tmpTxt, .spawn cmd] ++ fin }
      | .ok _ =>
        { result := .ok (pyStrip (pyReadText env.outBytes)),
          trace := setup ++ [.mkstempTxt env.tmpTxt, .spawn cmd,
                             .readOutFile env.tmpTxt,
                             .removeTry env.tmpTxt (env.removeOk env.tmpTxt)] ++ fin }
    else
      { result := .error .unsupportedEngine, trace := setup ++ fin }

/-- A concrete environment builder shared by witnesses: fixed temp names,
all removals succeed. -/
def envG (which dec : Bool) (sr : Except Unit ProcOut) (bytes : List Nat) : OcrEnv :=
  { whichFound := which, decodeOk := dec, tmpPng := "/tmp/img.png",
    tmpTxt := "/tmp/out.txt", spawnResult := sr, outBytes := bytes,
    removeOk := fun _ => true }

/-- C3: when the engine executable is not resolvable on the search path
(`engine_available` false), `recognize` raises `EngineNotFoundError`
(`FileNotFoundError` in the source) with an empty event trace: no
normalization is attempted, no process is spawned, and no temporary
artifact is created. -/
theorem C3_engine_not_found (spec : EngineSpec) (p : String) (env : OcrEnv)
    (h : env.whichFound = false) :
    (recognize spec p env).result = .error .engineNotFound ∧
      (recognize spec p env).trace = [] := by
  simp [recognize, h]

theorem C3_engine_not_found_witness :
    (envG false true (.ok ⟨"", "", 0⟩) []).whichFound = false ∧
      (recognize ⟨"gocr", "eng"⟩ "doc.png" (envG false true (.ok ⟨"", "", 0⟩) [])).result
          = .error .engineNotFound ∧
      (recognize ⟨"gocr", "eng"⟩ "doc.png" (envG false true (.ok ⟨"", "", 0⟩) [])).trace
          = [] :=
  ⟨rfl, (C3_engine_not_found ⟨"gocr", "eng"⟩ "doc.png" _ rfl).1,
    (C3_engine_not_found ⟨"gocr", "eng"⟩ "doc.png" _ rfl).2⟩

/-- C10: when the source image does not decode (with an available engine),
`recognize` raises the invalid-image error and its trace is exactly
`[preprocessRun]`: preprocessing ran and failed before `tempfile.mkstemp`
was reached, so no temporary file exists on this error path. -/
theorem C10_invalid_image_no_artifacts (spec : EngineSpec) (p : String) (env : OcrEnv)
    (h1 : env.whichFound = true) (h2 : env.decodeOk = false) :
    (recognize spec p env).result = .error .invalidImage ∧
      (recognize spec p env).trace = [.preprocessRun] := by
  simp [recognize, h1, h2]

theorem C10_invalid_image_no_artifacts_witness :
    (envG true false (.ok ⟨"", "", 0⟩) []).whichFound = true ∧
      (envG true false (.ok ⟨"", "", 0⟩) []).decodeOk = false ∧
      (recognize ⟨"gocr", "eng"⟩ "bad.png" (envG true false (.ok ⟨"", "", 0⟩) [])).result
          = .error .invalidImage ∧
      (recognize ⟨"gocr", "eng"⟩ "bad.png" (envG true false (.ok ⟨"", "", 0⟩) [])).trace
          = [.preprocessRun] :=
  ⟨rfl, rfl, (C10_invalid_image_no_artifacts ⟨"gocr", "eng"⟩ "bad.png" _ rfl rfl).1,
    (C10_invalid_image_no_artifacts ⟨"gocr", "eng"⟩ "bad.png" _ rfl rfl).2⟩

/-- C6: on the GOCR path, the executable is invoked with the temporary
raster path as its sole positional argument, and whenever `subprocess.run`
returns (any exit code, any stderr content, empty or nonempty stdout) the
call succeeds with the whitespace-trimmed stdout as the text. Since the
equation holds for every `ProcOut`, the result depends neither on the
error stream nor on the return code, and empty stdout yields `.ok ""`. -/
theorem C6_gocr_protocol (spec : EngineSpec) (p : String) (env : OcrEnv) (pr : ProcOut)
    (he : spec.engine = "gocr") (h1 : env.whichFound = true) (h2 : env.decodeOk = true)
    (hs : env.spawnResult = .ok pr) :
    (recognize spec p env).result = .ok (pyStrip pr.stdout) ∧
      Ev.spawn [spec.engine, env.tmpPng] ∈ (recognize spec p env).trace := by
  simp [recognize, he, h1, h2, hs]

theorem C6_gocr_protocol_witness :
    (recognize ⟨"gocr", "eng"⟩ "doc.png"
          (envG true true (.ok ⟨"  HELLO \n", "gocr: warning", 3⟩) [])).result
        = .ok (pyStrip "  HELLO \n") ∧
      Ev.spawn ["gocr", "/tmp/img.png"]
          ∈ (recognize ⟨"gocr", "eng"⟩ "doc.png"
              (envG true true (.ok ⟨"  HELLO \n", "gocr: warning", 3⟩) [])).trace ∧
      pyStrip "  HELLO \n" = "HELLO" :=
  ⟨(C6_gocr_protocol ⟨"gocr", "eng"⟩ "doc.png" _ ⟨"  HELLO \n", "gocr: warning", 3⟩
      rfl rfl rfl rfl).1,
    (C6_gocr_protocol ⟨"gocr", "eng"⟩ "doc.png" _ ⟨"  HELLO \n", "gocr: warning", 3⟩
      rfl rfl rfl rfl).2, by decide⟩

/-- C5 counterexample: the source opens the cuneiform output file with
`errors="ignore"`, which drops malformed byte sequences; the claim says
they are replaced (U+FFFD). On file bytes `FF 48 49` the call returns
`"HI"`, while the replace-decoding the claim describes yields a different
string, so the claim as stated is false. -/
theorem C5_counterexample :
    (recognize ⟨"cuneiform", "eng"⟩ "doc.png"
          (envG true true (.ok ⟨"", "", 0⟩) [255, 72, 73])).result = .ok "HI" ∧
      pyStrip (String.mk (pyNewlines (utf8DecodeReplace [255, 72, 73]))) ≠ "HI" := by
  exact ⟨rfl, by decide⟩

/-- C5 as amended: on the CUNEIFORM path the tool is invoked as
`cuneiform -l <language> -f text -o <output-path> <image-path>` with the
caller's language hint verbatim; after the process returns, the output
file is read as UTF-8 text with malformed byte sequences dropped
(`errors="ignore"` — not replaced) and universal newlines, trimmed, and
the temporary output file is then deleted. -/
theorem C5_cuneiform_protocol (spec : EngineSpec) (p : String) (env : OcrEnv) (pr : ProcOut)
    (he : spec.engine = "cuneiform") (h1 : env.whichFound = true) (h2 : env.decodeOk = true)
    (hs : env.spawnResult = .ok pr) :
    Ev.spawn [spec.engine, "-l", spec.language, "-f", "text", "-o", env.tmpTxt, env.tmpPng]
        ∈ (recognize spec p env).trace ∧
      (recognize spec p env).result = .ok (pyStrip (pyReadText env.outBytes)) ∧
      Ev.removeTry env.tmpTxt (env.removeOk env.tmpTxt) ∈ (recognize spec p env).trace := by
  simp [recognize, he, h1, h2, hs]

theorem C5_cuneiform_protocol_witness :
    Ev.spawn ["cuneiform", "-l", "fra", "-f", "text", "-o", "/tmp/out.txt", "/tmp/img.png"]
        ∈ (recognize ⟨"cuneiform", "fra"⟩ "doc.png"
            (envG true true (.ok ⟨"", "", 0⟩) [87, 79, 82, 76, 68, 10])).trace ∧
      (recognize ⟨"cuneiform", "fra"⟩ "doc.png"
            (envG true true (.ok ⟨"", "", 0⟩) [87, 79, 82, 76, 68, 10])).result
          = .ok (pyStrip (pyReadText [87, 79, 82, 76, 68, 10])) ∧
      Ev.removeTry "/tmp/out.txt" true
          ∈ (recognize ⟨"cuneiform", "fra"⟩ "doc.png"
              (envG true true (.ok ⟨"", "", 0⟩) [87, 79, 82, 76, 68, 10])).trace ∧
      pyStrip (pyReadText [87, 79, 82, 76, 68, 10]) = "WORLD" :=
  ⟨(C5_cuneiform_protocol ⟨"cuneiform", "fra"⟩ "doc.png" _ ⟨"", "", 0⟩ rfl rfl rfl rfl).1,
    (C5_cuneiform_protocol ⟨"cuneiform", "fra"⟩ "doc.png" _ ⟨"", "", 0⟩ rfl rfl rfl rfl).2.1,
    (C5_cuneiform_protocol ⟨"cuneiform", "fra"⟩ "doc.png" _ ⟨"", "", 0⟩ rfl rfl rfl rfl).2.2,
    by decide⟩

/-- C1 counterexample: if `subprocess.run` itself raises on the CUNEIFORM
path (e.g. the executable vanished between the availability check and the
invocation, or the captured stream fails to decode), the second temporary
output file has already been created by `tempfile.mkstemp` but the
`try/finally` protecting its deletion has not been entered yet, so no
deletion of it is ever attempted: the claim that every exit path deletes
the CUNEIFORM output file is false. (The raster temp file is still
removed by the outer `finally`.) -/
theorem C1_counterexample :
    Ev.mkstempTxt "/tmp/out.txt"
        ∈ (recognize ⟨"cuneiform", "eng"⟩ "doc.png" (envG true true (.error ()) [])).trace ∧
      Ev.removeTry "/tmp/out.txt" true
          ∉ (recognize ⟨"cuneiform", "eng"⟩ "doc.png" (envG true true (.error ()) [])).trace ∧
      Ev.removeTry "/tmp/out.txt" false
          ∉ (recognize ⟨"cuneiform", "eng"⟩ "doc.png" (envG true true (.error ()) [])).trace ∧
      Ev.removeTry "/tmp/img.png" true
          ∈ (recognize ⟨"cuneiform", "eng"⟩ "doc.png" (envG true true (.error ()) [])).trace := by
  decide

/-- C1 as amended: on every exit path that reaches temp-file creation, the
scoped temporary raster file is passed to `os.remove` before the call
returns and any deletion failure is swallowed (the returned
result does not depend on deletion outcomes at all); the CUNEIFORM
temporary output file is deleted on every exit path on which
`subprocess.run` returns (including nonzero exit codes), but not when the
invocation itself raises after the output temp was created. -/
theorem C1_cleanup_amended (spec : EngineSpec) (p : String) (env : OcrEnv)
    (f : String → Bool) (h1 : env.whichFound = true) (h2 : env.decodeOk = true) :
    (Ev.removeTry env.tmpPng (env.removeOk env.tmpPng) ∈ (recognize spec p env).trace) ∧
      ((recognize spec p { env with removeOk := f }).result = (recognize spec p env).result) ∧
      (spec.engine = "cuneiform" → ∀ pr : ProcOut, env.spawnResult = .ok pr →
        Ev.removeTry env.tmpTxt (env.removeOk env.tmpTxt) ∈ (recognize spec p env).trace) := by
  by_cases hg : spec.engine = "gocr"
  · rcases hsp : env.spawnResult with u | pr <;> simp [recognize, h1, h2, hg, hsp]
  · by_cases hc : spec.engine = "cuneiform"
    · rcases hsp : env.spawnResult with u | pr <;> simp [recognize, h1, h2, hg, hc, hsp]
    · simp [recognize, h1, h2, hg, hc]

theorem C1_cleanup_amended_witness :
    (Ev.removeTry "/tmp/img.png" true
        ∈ (recognize ⟨"cuneiform", "eng"⟩ "doc.png"
            (envG true true (.ok ⟨"", "", 0⟩) [72])).trace) ∧
      ((recognize ⟨"cuneiform", "eng"⟩ "doc.png"
            { envG true true (.ok ⟨"", "", 0⟩) [72] with removeOk := fun _ => false }).result
          = (recognize ⟨"cuneiform", "eng"⟩ "doc.png"
              (envG true true (.ok ⟨"", "", 0⟩) [72])).result) ∧
      (Ev.removeTry "/tmp/out.txt" true
          ∈ (recognize ⟨"cuneiform", "eng"⟩ "doc.png"
              (envG true true (.ok ⟨"", "", 0⟩) [72])).trace) :=
  ⟨(C1_cleanup_amended ⟨"cuneiform", "eng"⟩ "doc.png" _ (fun _ => false) rfl rfl).1,
    (C1_cleanup_amended ⟨"cuneiform", "eng"⟩ "doc.png" _ (fun _ => false) rfl rfl).2.1,
    (C1_cleanup_amended ⟨"cuneiform", "eng"⟩ "doc.png" _ (fun _ => false) rfl rfl).2.2
      rfl ⟨"", "", 0⟩ rfl⟩

/-- C2 counterexample: `recognize` returns only the recognized text string
(`return text` — the docstring itself says "Returns recognized text as a
string"), not a `RecognitionResult` record carrying the engine spec. Two
calls made with different engine specs return exactly equal values, which
would be impossible if the returned value contained `engine_used` equal
to the supplied spec. -/
theorem C2_counterexample :
    (recognize ⟨"gocr", "eng"⟩ "doc.png" (envG true true (.ok ⟨" HELLO ", "", 0⟩) [])).result
        = .ok "HELLO" ∧
      (recognize ⟨"cuneiform", "fra"⟩ "doc.png"
            (envG true true (.ok ⟨"", "", 0⟩) [72, 69, 76, 76, 79])).result
          = .ok "HELLO" ∧
      (⟨"gocr", "eng"⟩ : EngineSpec) ≠ (⟨"cuneiform", "fra"⟩ : EngineSpec) ∧
      (recognize ⟨"gocr", "eng"⟩ "doc.png" (envG true true (.ok ⟨" HELLO ", "", 0⟩) [])).result
        = (recognize ⟨"cuneiform", "fra"⟩ "doc.png"
            (envG true true (.ok ⟨"", "", 0⟩) [72, 69, 76, 76, 79])).result :=
  ⟨rfl, rfl, by decide, rfl⟩

/-- C2 as amended: on success `recognize` returns the recognized text as a
bare string — gocr's trimmed stdout, or cuneiform's trimmed decoded output
file — and nothing else; the engine spec used is not part of the returned
value (the caller keeps it as dispatcher state). -/
theorem C2_returns_text_only (spec : EngineSpec) (p : String) (env : OcrEnv) (pr : ProcOut)
    (h1 : env.whichFound = true) (h2 : env.decodeOk = true)
    (hs : env.spawnResult = .ok pr) :
    (spec.engine = "gocr" → (recognize spec p env).result = .ok (pyStrip pr.stdout)) ∧
      (spec.engine = "cuneiform" →
        (recognize spec p env).result = .ok (pyStrip (pyReadText env.outBytes))) := by
  constructor <;> intro he <;> simp [recognize, he, h1, h2, hs]

theorem C2_returns_text_only_witness :
    (recognize ⟨"gocr", "eng"⟩ "doc.png" (envG true true (.ok ⟨" HI ", "", 0⟩) [])).result
        = .ok (pyStrip " HI ") ∧
      pyStrip " HI " = "HI" :=
  ⟨(C2_returns_text_only ⟨"gocr", "eng"⟩ "doc.png" _ ⟨" HI ", "", 0⟩ rfl rfl rfl).1 rfl,
    by decide⟩

/-!
## The image pipeline `ExternalOCREngine._preprocess_image`

An 8-bit single-channel image is a list of rows of intensities. The
OpenCV calls are modelled from their documented algorithms:

* `cv2.GaussianBlur(img, (3, 3), 0)`: with `sigma = 0` and kernel size 3
  OpenCV uses the fixed kernel `(1/4, 1/2, 1/4)` in each axis, i.e. the
  separable 3x3 kernel `(1 2 1; 2 4 2; 1 2 1)/16`, with
  `BORDER_REFLECT_101` (named `BORDER_DEFAULT`) at the edges and
  round-half-up fixed-point arithmetic;
* `cv2.threshold(img, 0, 255, THRESH_BINARY + THRESH_OTSU)`: Otsu's
  threshold from the 256-bin histogram exactly as in OpenCV's
  `getThreshVal_Otsu_8u` (`FLT_EPSILON` guard included, modelled in exact
  arithmetic), then `dst = (src > thresh) ? 255 : 0`;
* `np.column_stack(np.where(thresh > 0))`: row-major list of
  `(row, col)` coordinates of pixels strictly above 0;
* `cv2.minAreaRect(coords)[-1]`: the minimum-area enclosing rectangle has
  a side parallel to some segment between two of the points, so the side
  direction is the candidate segment direction minimizing the bounding
  area; the reported angle lies in [-90, 0) and is represented here
  exactly by an integer direction vector in that quadrant together with
  its normalization to a unit (cosine, sine) pair, which is exact when
  the direction norm is an integer;
* `cv2.getRotationMatrix2D`, `cv2.invertAffineTransform` and
  `cv2.warpAffine(..., flags=INTER_CUBIC, borderMode=BORDER_REPLICATE)`
  as documented, with the bicubic convolution kernel (A = -0.75) and
  round-half-up saturation to `[0, 255]`.
-/

/-- A single-channel 8-bit raster as a list of rows. -/
structure Img where
  rows : List (List Nat)
deriving DecidableEq, Repr

/-- Height (`shape[0]`). -/
def Img.h (img : Img) : Nat := img.rows.length

/-- Width (`shape[1]`). -/
def Img.w (img : Img) : Nat := (img.rows.headD []).length

/-- Pixel access, 0 out of range (never used out of range by the model). -/
def Img.px (img : Img) (i j : Nat) : Nat := (img.rows.getD i []).getD j 0

/-- Build an `h` by `w` image from a pixel function. -/
def mkImg (h w : Nat) (f : Nat → Nat → Nat) : Img :=
  ⟨(List.range h).map (fun i => (List.range w).map (fun j => f i j))⟩

/-- OpenCV `borderInterpolate` for `BORDER_REFLECT_101`: one reflection
(enough for the radius-1 kernel); for a length-1 axis OpenCV returns 0. -/
def borderReflect101 (n : Nat) (p : Int) : Nat :=
  if n = 1 then 0
  else if p < 0 then (-p).toNat
  else if (n : Int) ≤ p then (2 * ((n : Int) - 1) - p).toNat
  else p.toNat

/-- Sample for the blur at offset `(di, dj)` with reflected borders. -/
def blurSample (img : Img) (i j : Nat) (di dj : Int) : Nat :=
  img.px (borderReflect101 img.h ((i : Int) + di)) (borderReflect101 img.w ((j : Int) + dj))

/-- One pixel of `cv2.GaussianBlur(img, (3, 3), 0)`: 3x3 kernel
`(1 2 1; 2 4 2; 1 2 1)/16`, rounded half-up (the exact value of OpenCV's
fixed-point separable filter, since the kernel weights are dyadic). -/
def blurPx (img : Img) (i j : Nat) : Nat :=
  (blurSample img i j (-1) (-1) * 1 + blurSample img i j (-1) 0 * 2 +
      blurSample img i j (-1) 1 * 1 +
    blurSample img i j 0 (-1) * 2 + blurSample img i j 0 0 * 4 +
      blurSample img i j 0 1 * 2 +
    blurSample img i j 1 (-1) * 1 + blurSample img i j 1 0 * 2 +
      blurSample img i j 1 1 * 1 + 8) / 16

/-- Model of `cv2.GaussianBlur(img, (3, 3), 0)`. -/
def gaussianBlur3 (img : Img) : Img := mkImg img.h img.w (blurPx img)

/-- 256-bin histogram entry: how many pixels have value `v`. -/
def hist (img : Img) (v : Nat) : Nat := (img.rows.map (fun r => r.count v)).sum

/-- Loop state of OpenCV `getThreshVal_Otsu_8u`. -/
structure OtsuSt where
  q1 : Fr
  mu1 : Fr
  maxSigma : Fr
  maxVal : Nat
deriving DecidableEq, Repr

/-- `FLT_EPSILON` (2 to the -23), used by the Otsu loop guard. -/
def otsuEps : Fr := ⟨1, 8388608⟩

/-- One iteration of OpenCV's Otsu scan over candidate thresholds. -/
def otsuStep (n mu : Fr) (hst : Nat → Nat) (st : OtsuSt) (i : Nat) : OtsuSt :=
  let p := frDiv (frOfNat (hst i)) n
  let mu1a := frMul st.mu1 st.q1
  let q1 := frAdd st.q1 p
  let q2 := frSub frOne q1
  if frLt (frMin q1 q2) otsuEps || frLt (frSub frOne otsuEps) (frMax q1 q2) then
    { q1 := q1, mu1 := mu1a, maxSigma := st.maxSigma, maxVal := st.maxVal }
  else
    let mu1 := frDiv (frAdd mu1a (frMul (frOfNat i) p)) q1
    let mu2 := frDiv (frSub mu (frMul q1 mu1)) q2
    let dm := frSub mu1 mu2
    let sigma := frMul (frMul q1 q2) (frMul dm dm)
    if frLt st.maxSigma sigma then
      { q1 := q1, mu1 := mu1, maxSigma := sigma, maxVal := i }
    else
      { q1 := q1, mu1 := mu1, maxSigma := st.maxSigma, maxVal := st.maxVal }

/-- Partial sum `acc + Σ_{a ≤ i < a+n} i * hist i` of the global-mean
numerator (the loop is the whole scan for `a = 0`, `n = 256`). -/
def muSum (img : Img) (a n : Nat) (acc : Nat) : Nat :=
  (List.range' a n).foldl (fun acc2 i => acc2 + i * hist img i) acc

/-- The Otsu scan over threshold candidates `a ≤ i < a + n` (the whole
loop `for i in 0..255` is `a = 0`, `n = 256`). -/
def otsuScan (nf mu : Fr) (img : Img) (a n : Nat) (st : OtsuSt) : OtsuSt :=
  (List.range' a n).foldl (otsuStep nf mu (hist img)) st

theorem muSum_split (img : Img) (a n m acc : Nat) :
    muSum img a (n + m) acc = muSum img (a + n) m (muSum img a n acc) := by
  unfold muSum
  rw [show n + m = m + n from Nat.add_comm n m, ← List.range'_append a n m 1,
    List.foldl_append]
  simp

theorem otsuScan_split (nf mu : Fr) (img : Img) (a n m : Nat) (st : OtsuSt) :
    otsuScan nf mu img a (n + m) st
      = otsuScan nf mu img (a + n) m (otsuScan nf mu img a n st) := by
  unfold otsuScan
  rw [show n + m = m + n from Nat.add_comm n m, ← List.range'_append a n m 1,
    List.foldl_append]
  simp

/-- The threshold selected by a finished scan state (a plain function
wrapper, so that definitional unfolding does not force the whole scan). -/
def otsuMax (s : OtsuSt) : Nat := s.maxVal

/-- Otsu's threshold, exactly as OpenCV's `getThreshVal_Otsu_8u`: the
global mean `mu = (Σ i * hist i) / (h * w)`, then a scan over the 256
candidate thresholds maximizing the between-class variance, skipping
degenerate splits via the `FLT_EPSILON` guard. -/
def otsuThreshold (img : Img) : Nat :=
  otsuMax (otsuScan (frOfNat (img.h * img.w))
      (frDiv (frOfNat (muSum img 0 256 0)) (frOfNat (img.h * img.w)))
      img 0 256 ⟨frZero, frZero, frZero, 0⟩)

theorem otsuThreshold_eq (img : Img) : otsuThreshold img =
    otsuMax (otsuScan (frOfNat (img.h * img.w))
      (frDiv (frOfNat (muSum img 0 256 0)) (frOfNat (img.h * img.w)))
      img 0 256 ⟨frZero, frZero, frZero, 0⟩) := rfl

/-- `cv2.threshold(img, 0, 255, THRESH_BINARY + THRESH_OTSU)`: pixels
strictly above the Otsu threshold become 255, others 0. -/
def applyOtsu (img : Img) : Img :=
  let t := otsuThreshold img
  mkImg img.h img.w (fun i j => if t < img.px i j then 255 else 0)

/-- The binarized image the deskew step works on. -/
def threshOf (img : Img) : Img := applyOtsu (gaussianBlur3 img)

/-- `np.column_stack(np.where(thresh > 0))`: row-major `(row, col)`
coordinates of the foreground pixels. -/
def coordsOf (img : Img) : List (Int × Int) :=
  (List.range img.h).flatMap (fun i =>
    (List.range img.w).filterMap (fun j =>
      if 0 < img.px i j then some ((i : Int), (j : Int)) else none))

def dotP (p d : Int × Int) : Int := p.1 * d.1 + p.2 * d.2

def crossP (p d : Int × Int) : Int := p.1 * d.2 - p.2 * d.1

def listMax : List Int → Int
  | [] => 0
  | x :: xs => xs.foldl max x

def listMin : List Int → Int
  | [] => 0
  | x :: xs => xs.foldl min x

/-- Extent of the point set along direction `d` (scaled by the norm of `d`). -/
def spreadDot (pts : List (Int × Int)) (d : Int × Int) : Int :=
  listMax (pts.map (fun p => dotP p d)) - listMin (pts.map (fun p => dotP p d))

/-- Extent of the point set across direction `d` (scaled by the norm of `d`). -/
def spreadCross (pts : List (Int × Int)) (d : Int × Int) : Int :=
  listMax (pts.map (fun p => crossP p d)) - listMin (pts.map (fun p => crossP p d))

def norm2 (d : Int × Int) : Int := d.1 * d.1 + d.2 * d.2

/-- Bounding-rectangle area for side direction `d`, scaled by `norm2 d`. -/
def areaSc (pts : List (Int × Int)) (d : Int × Int) : Int :=
  spreadDot pts d * spreadCross pts d

/-- Exact comparison: is the bounding rectangle for direction `d` strictly
smaller in area than the one for direction `e`? -/
def areaLtB (pts : List (Int × Int)) (d e : Int × Int) : Bool :=
  areaSc pts d * norm2 e < areaSc pts e * norm2 d

/-- Candidate side directions: all segments between two distinct points.
The minimum-area enclosing rectangle has a side collinear with a convex
hull edge, and every hull edge is such a segment, so minimizing over this
superset yields the minimum-area rectangle. -/
def candDirs (pts : List (Int × Int)) : List (Int × Int) :=
  pts.flatMap (fun p => pts.filterMap (fun q =>
    if q ≠ p then some (q.1 - p.1, q.2 - p.2) else none))

/-- Fold keeping the direction of the smallest bounding rectangle seen. -/
def dirScan (pts : List (Int × Int)) (ds : List (Int × Int)) (best : Int × Int) :
    Int × Int :=
  ds.foldl (fun b d => if areaLtB pts d b then d else b) best

theorem dirScan_split (pts : List (Int × Int)) (l1 l2 : List (Int × Int))
    (b : Int × Int) : dirScan pts (l1 ++ l2) b = dirScan pts l2 (dirScan pts l1 b) := by
  unfold dirScan
  exact List.foldl_append _ _ _ _

/-- Side direction of the minimum-area rectangle over the point set (the
axis-aligned direction `(0, 1)` is always among the candidates OpenCV
considers, and serves as the fold seed). -/
def bestDir (pts : List (Int × Int)) : Int × Int :=
  dirScan pts (candDirs pts) (0, 1)

/-- Normalize a rectangle side direction to OpenCV's reported-angle
convention: `minAreaRect` reports an angle in [-90, 0); among the four
side directions of the rectangle we take the one in that quadrant
(nonnegative first, negative second component); it is proportional to
`(cos angle, sin angle)`. -/
def ocvDir (d : Int × Int) : Int × Int :=
  (([d, (-d.1, -d.2), (-d.2, d.1), (d.2, -d.1)].filter
      (fun e => 0 ≤ e.1 && e.2 < 0)).headD (0, -1))

/-- Integer square root by bounded search (kernel-reducible). -/
def isqrt (n : Nat) : Nat :=
  (List.range (n + 2)).foldl (fun acc k => if k * k ≤ n then k else acc) 0

/-- Exact unit vector `(cos, sin)` of an integer direction; defined when
the norm is an integer (Pythagorean direction), the domain on which the
model tracks OpenCV exactly. -/
def dirUnit (d : Int × Int) : Option (Fr × Fr) :=
  let n2 := (norm2 d).toNat
  let r := isqrt n2
  if 0 < r && r * r = n2 then some (⟨d.1, (r : Int)⟩, ⟨d.2, (r : Int)⟩) else none

/-- The corrected rotation `(cos, sin)` per the source: with the reported
angle θ in [-90, 0) given as `(c, s)`, the test `angle < -45` is
`s*s > c*c`; the rotation angle is then `-(90 + θ)`, whose cosine is `-s`
and sine is `-c`; otherwise it is `-θ`, with cosine `c` and sine `-s`. -/
def deskewCS (cs : Fr × Fr) : Fr × Fr :=
  if frLt (frMul cs.1 cs.1) (frMul cs.2 cs.2) then (frNeg cs.2, frNeg cs.1)
  else (cs.1, frNeg cs.2)

/-- A 2x3 affine map. -/
structure Aff where
  a00 : Fr
  a01 : Fr
  a02 : Fr
  a10 : Fr
  a11 : Fr
  a12 : Fr
deriving DecidableEq, Repr

/-- `cv2.getRotationMatrix2D((cx, cy), angle, 1.0)` with
`(c, s) = (cos angle, sin angle)`. -/
def rotMat (cx cy c s : Fr) : Aff :=
  { a00 := c, a01 := s,
    a02 := frSub (frMul (frSub frOne c) cx) (frMul s cy),
    a10 := frNeg s, a11 := c,
    a12 := frAdd (frMul s cx) (frMul (frSub frOne c) cy) }

/-- `cv2.invertAffineTransform` (with its `D != 0 ? 1/D : 0` guard). -/
def invAff (m : Aff) : Aff :=
  let det := frSub (frMul m.a00 m.a11) (frMul m.a01 m.a10)
  let di := frDiv frOne det
  let b00 := frMul m.a11 di
  let b01 := frNeg (frMul m.a01 di)
  let b10 := frNeg (frMul m.a10 di)
  let b11 := frMul m.a00 di
  { a00 := b00, a01 := b01,
    a02 := frSub (frNeg (frMul b00 m.a02)) (frMul b01 m.a12),
    a10 := b10, a11 := b11,
    a12 := frSub (frNeg (frMul b10 m.a02)) (frMul b11 m.a12) }

/-- The OpenCV bicubic convolution kernel (`A = -0.75`). -/
def cubicW (t : Fr) : Fr :=
  let a : Fr := ⟨-3, 4⟩
  let x := frAbs t
  let x2 := frMul x x
  let x3 := frMul x2 x
  if frLe x frOne then
    frAdd (frSub (frMul (frAdd a ⟨2, 1⟩) x3) (frMul (frAdd a ⟨3, 1⟩) x2)) frOne
  else if frLt x ⟨2, 1⟩ then
    frSub (frAdd (frSub (frMul a x3) (frMul (frMul ⟨5, 1⟩ a) x2))
        (frMul (frMul ⟨8, 1⟩ a) x))
      (frMul ⟨4, 1⟩ a)
  else frZero

/-- Clamp an index into `[0, n)` (`BORDER_REPLICATE`). -/
def clampIdx (n : Nat) (t : Int) : Nat := (max 0 (min ((n : Int) - 1) t)).toNat

/-- Saturate to the 8-bit range. -/
def clamp255 (v : Int) : Nat := (max 0 (min 255 v)).toNat

/-- One destination pixel of `cv2.warpAffine(src, M, (w, h), INTER_CUBIC,
BORDER_REPLICATE)`, given the already-inverted map `m`: destination pixel
(row `i`, col `j`) maps through `m` applied to `(x, y) = (j, i)`; the
source is sampled bicubically on the 4x4 tap grid around the sample
point with border pixels replicated, and the result is rounded half-up
and saturated to `[0, 255]`. -/
def warpPx (src : Img) (m : Aff) (i j : Nat) : Nat :=
  let x : Fr := frOfNat j
  let y : Fr := frOfNat i
  let xs := frAdd (frAdd (frMul m.a00 x) (frMul m.a01 y)) m.a02
  let ys := frAdd (frAdd (frMul m.a10 x) (frMul m.a11 y)) m.a12
  let ix := frFloor xs
  let iy := frFloor ys
  let fx := frSub xs (frOfInt ix)
  let fy := frSub ys (frOfInt iy)
  let wx0 := cubicW (frAdd frOne fx)
  let wx1 := cubicW fx
  let wx2 := cubicW (frSub frOne fx)
  let wx3 := cubicW (frSub ⟨2, 1⟩ fx)
  let wy0 := cubicW (frAdd frOne fy)
  let wy1 := cubicW fy
  let wy2 := cubicW (frSub frOne fy)
  let wy3 := cubicW (frSub ⟨2, 1⟩ fy)
  let sample := fun (dy dx : Int) =>
    frOfNat (src.px (clampIdx src.h (iy + dy)) (clampIdx src.w (ix + dx)))
  let row := fun (dy : Int) (wy : Fr) =>
    frMul wy (frAdd (frAdd (frMul wx0 (sample dy (-1))) (frMul wx1 (sample dy 0)))
      (frAdd (frMul wx2 (sample dy 1)) (frMul wx3 (sample dy 2))))
  let total := frAdd (frAdd (row (-1) wy0) (row 0 wy1)) (frAdd (row 1 wy2) (row 2 wy3))
  clamp255 (frFloor (frAdd total ⟨1, 2⟩))

/-- Model of `cv2.warpAffine(src, M, (w, h), INTER_CUBIC, BORDER_REPLICATE)`
given the already-inverted map. -/
def warpAffineCubic (src : Img) (m : Aff) : Img := mkImg src.h src.w (warpPx src m)

/-- Shallow embedding of `ExternalOCREngine._preprocess_image` after a
successful decode: Gaussian blur, Otsu binarization, then — when any
foreground pixel exists — deskew by the minimum-area-rectangle angle with
a cubic-interpolated, border-replicated affine rotation about
`(w // 2, h // 2)`. `none` marks leaving the model's exact domain (a
minimum rectangle whose side direction has irrational norm), never a
Python-level outcome. -/
def preprocess_image (img : Img) : Option Img :=
  let thresh := threshOf img
  let coords := coordsOf thresh
  if coords.isEmpty then some thresh
  else
    match dirUnit (ocvDir (bestDir coords)) with
    | none => none
    | some cs =>
      let cs2 := deskewCS cs
      let m := rotMat (frOfNat (thresh.w / 2)) (frOfNat (thresh.h / 2)) cs2.1 cs2.2
      some (warpAffineCubic thresh (invAff m))

/-!
## Concrete pipeline evaluations

The following images witness or refute the normalization claims. Each
evaluation is staged (blur, global-mean sum, Otsu scan in segments,
threshold application, rectangle-direction scan in segments, warp) so
that every `decide` step stays within kernel reduction depth limits; the
intermediate literals carry no information beyond the computation itself.
-/

/-- A pure black/white page with a vertical edge and zero skew (left half black, right half white). -/
def hb4 : Img := ⟨[[0,0,255,255],[0,0,255,255],[0,0,255,255],[0,0,255,255]]⟩

def hb4B : Img := ⟨[[0, 64, 191, 255], [0, 64, 191, 255], [0, 64, 191, 255], [0, 64, 191, 255]]⟩

def hb4T : Img := ⟨[[0, 0, 255, 255], [0, 0, 255, 255], [0, 0, 255, 255], [0, 0, 255, 255]]⟩

set_option maxRecDepth 3500 in
theorem hb4_blur : gaussianBlur3 hb4 = hb4B := by decide

set_option maxRecDepth 3500 in
theorem hb4_musum : muSum hb4B 0 256 0 = 2040 := by
  have m1 : muSum hb4B 0 32 0 = 0 := by decide
  have m2 : muSum hb4B 0 64 0 = 0 := by
    rw [show (64 : Nat) = 32 + 32 from rfl, muSum_split, m1]; decide
  have m3 : muSum hb4B 0 96 0 = 256 := by
    rw [show (96 : Nat) = 64 + 32 from rfl, muSum_split, m2]; decide
  have m4 : muSum hb4B 0 128 0 = 256 := by
    rw [show (128 : Nat) = 96 + 32 from rfl, muSum_split, m3]; decide
  have m5 : muSum hb4B 0 160 0 = 256 := by
    rw [show (160 : Nat) = 128 + 32 from rfl, muSum_split, m4]; decide
  have m6 : muSum hb4B 0 192 0 = 1020 := by
    rw [show (192 : Nat) = 160 + 32 from rfl, muSum_split, m5]; decide
  have m7 : muSum hb4B 0 224 0 = 1020 := by
    rw [show (224 : Nat) = 192 + 32 from rfl, muSum_split, m6]; decide
  have m8 : muSum hb4B 0 256 0 = 2040 := by
    rw [show (256 : Nat) = 224 + 32 from rfl, muSum_split, m7]; decide
  exact m8

set_option maxRecDepth 3500 in
theorem hb4_otsu : otsuThreshold hb4B = 64 := by
  have s1 : otsuScan ⟨16, 1⟩ ⟨255, 2⟩ hb4B 0 8 ⟨frZero, frZero, frZero, 0⟩ = ⟨⟨1, 4⟩, ⟨0, 1⟩, ⟨21675, 4⟩, 0⟩ := by decide
  have s2 : otsuScan ⟨16, 1⟩ ⟨255, 2⟩ hb4B 0 16 ⟨frZero, frZero, frZero, 0⟩ = ⟨⟨1, 4⟩, ⟨0, 1⟩, ⟨21675, 4⟩, 0⟩ := by
    rw [show (16 : Nat) = 8 + 8 from rfl, otsuScan_split, s1]; decide
  have s3 : otsuScan ⟨16, 1⟩ ⟨255, 2⟩ hb4B 0 24 ⟨frZero, frZero, frZero, 0⟩ = ⟨⟨1, 4⟩, ⟨0, 1⟩, ⟨21675, 4⟩, 0⟩ := by
    rw [show (24 : Nat) = 16 + 8 from rfl, otsuScan_split, s2]; decide
  have s4 : otsuScan ⟨16, 1⟩ ⟨255, 2⟩ hb4B 0 32 ⟨frZero, frZero, frZero, 0⟩ = ⟨⟨1, 4⟩, ⟨0, 1⟩, ⟨21675, 4⟩, 0⟩ := by
    rw [show (32 : Nat) = 24 + 8 from rfl, otsuScan_split, s3]; decide
  have s5 : otsuScan ⟨16, 1⟩ ⟨255, 2⟩ hb4B 0 40 ⟨frZero, frZero, frZero, 0⟩ = ⟨⟨1, 4⟩, ⟨0, 1⟩, ⟨21675, 4⟩, 0⟩ := by
    rw [show (40 : Nat) = 32 + 8 from rfl, otsuScan_split, s4]; decide
  have s6 : otsuScan ⟨16, 1⟩ ⟨255, 2⟩ hb4B 0 48 ⟨frZero, frZero, frZero, 0⟩ = ⟨⟨1, 4⟩, ⟨0, 1⟩, ⟨21675, 4⟩, 0⟩ := by
    rw [show (48 : Nat) = 40 + 8 from rfl, otsuScan_split, s5]; decide
  have s7 : otsuScan ⟨16, 1⟩ ⟨255, 2⟩ hb4B 0 56 ⟨frZero, frZero, frZero, 0⟩ = ⟨⟨1, 4⟩, ⟨0, 1⟩, ⟨21675, 4⟩, 0⟩ := by
    rw [show (56 : Nat) = 48 + 8 from rfl, otsuScan_split, s6]; decide
  have s8 : otsuScan ⟨16, 1⟩ ⟨255, 2⟩ hb4B 0 64 ⟨frZero, frZero, frZero, 0⟩ = ⟨⟨1, 4⟩, ⟨0, 1⟩, ⟨21675, 4⟩, 0⟩ := by
    rw [show (64 : Nat) = 56 + 8 from rfl, otsuScan_split, s7]; decide
  have s9 : otsuScan ⟨16, 1⟩ ⟨255, 2⟩ hb4B 0 72 ⟨frZero, frZero, frZero, 0⟩ = ⟨⟨1, 2⟩, ⟨32, 1⟩, ⟨36481, 4⟩, 64⟩ := by
    rw [show (72 : Nat) = 64 + 8 from rfl, otsuScan_split, s8]; decide
  have s10 : otsuScan ⟨16, 1⟩ ⟨255, 2⟩ hb4B 0 80 ⟨frZero, frZero, frZero, 0⟩ = ⟨⟨1, 2⟩, ⟨32, 1⟩, ⟨36481, 4⟩, 64⟩ := by
    rw [show (80 : Nat) = 72 + 8 from rfl, otsuScan_split, s9]; decide
  have s11 : otsuScan ⟨16, 1⟩ ⟨255, 2⟩ hb4B 0 88 ⟨frZero, frZero, frZero, 0⟩ = ⟨⟨1, 2⟩, ⟨32, 1⟩, ⟨36481, 4⟩, 64⟩ := by
    rw [show (88 : Nat) = 80 + 8 from rfl, otsuScan_split, s10]; decide
  have s12 : otsuScan ⟨16, 1⟩ ⟨255, 2⟩ hb4B 0 96 ⟨frZero, frZero, frZero, 0⟩ = ⟨⟨1, 2⟩, ⟨32, 1⟩, ⟨36481, 4⟩, 64⟩ := by
    rw [show (96 : Nat) = 88 + 8 from rfl, otsuScan_split, s11]; decide
  have s13 : otsuScan ⟨16, 1⟩ ⟨255, 2⟩ hb4B 0 104 ⟨frZero, frZero, frZero, 0⟩ = ⟨⟨1, 2⟩, ⟨32, 1⟩, ⟨36481, 4⟩, 64⟩ := by
    rw [show (104 : Nat) = 96 + 8 from rfl, otsuScan_split, s12]; decide
  have s14 : otsuScan ⟨16, 1⟩ ⟨255, 2⟩ hb4B 0 112 ⟨frZero, frZero, frZero, 0⟩ = ⟨⟨1, 2⟩, ⟨32, 1⟩, ⟨36481, 4⟩, 64⟩ := by
    rw [show (112 : Nat) = 104 + 8 from rfl, otsuScan_split, s13]; decide
  have s15 : otsuScan ⟨16, 1⟩ ⟨255, 2⟩ hb4B 0 120 ⟨frZero, frZero, frZero, 0⟩ = ⟨⟨1, 2⟩, ⟨32, 1⟩, ⟨36481, 4⟩, 64⟩ := by
    rw [show (120 : Nat) = 112 + 8 from rfl, otsuScan_split, s14]; decide
  have s16 : otsuScan ⟨16, 1⟩ ⟨255, 2⟩ hb4B 0 128 ⟨frZero, frZero, frZero, 0⟩ = ⟨⟨1, 2⟩, ⟨32, 1⟩, ⟨36481, 4⟩, 64⟩ := by
    rw [show (128 : Nat) = 120 + 8 from rfl, otsuScan_split, s15]; decide
  have s17 : otsuScan ⟨16, 1⟩ ⟨255, 2⟩ hb4B 0 136 ⟨frZero, frZero, frZero, 0⟩ = ⟨⟨1, 2⟩, ⟨32, 1⟩, ⟨36481, 4⟩, 64⟩ := by
    rw [show (136 : Nat) = 128 + 8 from rfl, otsuScan_split, s16]; decide
  have s18 : otsuScan ⟨16, 1⟩ ⟨255, 2⟩ hb4B 0 144 ⟨frZero, frZero, frZero, 0⟩ = ⟨⟨1, 2⟩, ⟨32, 1⟩, ⟨36481, 4⟩, 64⟩ := by
    rw [show (144 : Nat) = 136 + 8 from rfl, otsuScan_split, s17]; decide
  have s19 : otsuScan ⟨16, 1⟩ ⟨255, 2⟩ hb4B 0 152 ⟨frZero, frZero, frZero, 0⟩ = ⟨⟨1, 2⟩, ⟨32, 1⟩, ⟨36481, 4⟩, 64⟩ := by
    rw [show (152 : Nat) = 144 + 8 from rfl, otsuScan_split, s18]; decide
  have s20 : otsuScan ⟨16, 1⟩ ⟨255, 2⟩ hb4B 0 160 ⟨frZero, frZero, frZero, 0⟩ = ⟨⟨1, 2⟩, ⟨32, 1⟩, ⟨36481, 4⟩, 64⟩ := by
    rw [show (160 : Nat) = 152 + 8 from rfl, otsuScan_split, s19]; decide
  have s21 : otsuScan ⟨16, 1⟩ ⟨255, 2⟩ hb4B 0 168 ⟨frZero, frZero, frZero, 0⟩ = ⟨⟨1, 2⟩, ⟨32, 1⟩, ⟨36481, 4⟩, 64⟩ := by
    rw [show (168 : Nat) = 160 + 8 from rfl, otsuScan_split, s20]; decide
  have s22 : otsuScan ⟨16, 1⟩ ⟨255, 2⟩ hb4B 0 176 ⟨frZero, frZero, frZero, 0⟩ = ⟨⟨1, 2⟩, ⟨32, 1⟩, ⟨36481, 4⟩, 64⟩ := by
    rw [show (176 : Nat) = 168 + 8 from rfl, otsuScan_split, s21]; decide
  have s23 : otsuScan ⟨16, 1⟩ ⟨255, 2⟩ hb4B 0 184 ⟨frZero, frZero, frZero, 0⟩ = ⟨⟨1, 2⟩, ⟨32, 1⟩, ⟨36481, 4⟩, 64⟩ := by
    rw [show (184 : Nat) = 176 + 8 from rfl, otsuScan_split, s22]; decide
  have s24 : otsuScan ⟨16, 1⟩ ⟨255, 2⟩ hb4B 0 192 ⟨frZero, frZero, frZero, 0⟩ = ⟨⟨3, 4⟩, ⟨85, 1⟩, ⟨36481, 4⟩, 64⟩ := by
    rw [show (192 : Nat) = 184 + 8 from rfl, otsuScan_split, s23]; decide
  have s25 : otsuScan ⟨16, 1⟩ ⟨255, 2⟩ hb4B 0 200 ⟨frZero, frZero, frZero, 0⟩ = ⟨⟨3, 4⟩, ⟨85, 1⟩, ⟨36481, 4⟩, 64⟩ := by
    rw [show (200 : Nat) = 192 + 8 from rfl, otsuScan_split, s24]; decide
  have s26 : otsuScan ⟨16, 1⟩ ⟨255, 2⟩ hb4B 0 208 ⟨frZero, frZero, frZero, 0⟩ = ⟨⟨3, 4⟩, ⟨85, 1⟩, ⟨36481, 4⟩, 64⟩ := by
    rw [show (208 : Nat) = 200 + 8 from rfl, otsuScan_split, s25]; decide
  have s27 : otsuScan ⟨16, 1⟩ ⟨255, 2⟩ hb4B 0 216 ⟨frZero, frZero, frZero, 0⟩ = ⟨⟨3, 4⟩, ⟨85, 1⟩, ⟨36481, 4⟩, 64⟩ := by
    rw [show (216 : Nat) = 208 + 8 from rfl, otsuScan_split, s26]; decide
  have s28 : otsuScan ⟨16, 1⟩ ⟨255, 2⟩ hb4B 0 224 ⟨frZero, frZero, frZero, 0⟩ = ⟨⟨3, 4⟩, ⟨85, 1⟩, ⟨36481, 4⟩, 64⟩ := by
    rw [show (224 : Nat) = 216 + 8 from rfl, otsuScan_split, s27]; decide
  have s29 : otsuScan ⟨16, 1⟩ ⟨255, 2⟩ hb4B 0 232 ⟨frZero, frZero, frZero, 0⟩ = ⟨⟨3, 4⟩, ⟨85, 1⟩, ⟨36481, 4⟩, 64⟩ := by
    rw [show (232 : Nat) = 224 + 8 from rfl, otsuScan_split, s28]; decide
  have s30 : otsuScan ⟨16, 1⟩ ⟨255, 2⟩ hb4B 0 240 ⟨frZero, frZero, frZero, 0⟩ = ⟨⟨3, 4⟩, ⟨85, 1⟩, ⟨36481, 4⟩, 64⟩ := by
    rw [show (240 : Nat) = 232 + 8 from rfl, otsuScan_split, s29]; decide
  have s31 : otsuScan ⟨16, 1⟩ ⟨255, 2⟩ hb4B 0 248 ⟨frZero, frZero, frZero, 0⟩ = ⟨⟨3, 4⟩, ⟨85, 1⟩, ⟨36481, 4⟩, 64⟩ := by
    rw [show (248 : Nat) = 240 + 8 from rfl, otsuScan_split, s30]; decide
  have s32 : otsuScan ⟨16, 1⟩ ⟨255, 2⟩ hb4B 0 256 ⟨frZero, frZero, frZero, 0⟩ = ⟨⟨1, 1⟩, ⟨255, 4⟩, ⟨36481, 4⟩, 64⟩ := by
    rw [show (256 : Nat) = 248 + 8 from rfl, otsuScan_split, s31]; decide
  rw [otsuThreshold_eq, hb4_musum,
    show frOfNat (hb4B.h * hb4B.w) = (⟨16, 1⟩ : Fr) from by decide,
    show frDiv (frOfNat 2040) (⟨16, 1⟩ : Fr) = (⟨255, 2⟩ : Fr) from by decide,
    s32]
  rfl

set_option maxRecDepth 3500 in
theorem hb4_thresh : threshOf hb4 = hb4T := by
  unfold threshOf
  rw [hb4_blur]
  unfold applyOtsu
  simp only [hb4_otsu]
  decide

def hb4C : List (Int × Int) := [(0, 2), (0, 3), (1, 2), (1, 3), (2, 2), (2, 3), (3, 2), (3, 3)]

def hb4D1 : List (Int × Int) := [(0, 1), (1, 0), (1, 1), (2, 0), (2, 1), (3, 0), (3, 1), (0, -1), (1, -1), (1, 0), (2, -1), (2, 0), (3, -1), (3, 0), (-1, 0), (-1, 1), (0, 1), (1, 0), (1, 1), (2, 0), (2, 1), (-1, -1), (-1, 0), (0, -1), (1, -1), (1, 0), (2, -1), (2, 0), (-2, 0), (-2, 1)]
def hb4D2 : List (Int × Int) := [(-1, 0), (-1, 1), (0, 1), (1, 0), (1, 1), (-2, -1), (-2, 0), (-1, -1), (-1, 0), (0, -1), (1, -1), (1, 0), (-3, 0), (-3, 1), (-2, 0), (-2, 1), (-1, 0), (-1, 1), (0, 1), (-3, -1), (-3, 0), (-2, -1), (-2, 0), (-1, -1), (-1, 0), (0, -1)]

set_option maxRecDepth 3500 in
theorem hb4_bestdir : bestDir hb4C = (0, 1) := by
  have hcd : candDirs hb4C = hb4D1 ++ hb4D2 := by decide
  have b1 : dirScan hb4C hb4D1 (0, 1) = (0, 1) := by decide
  have b2 : dirScan hb4C (hb4D1 ++ hb4D2) (0, 1) = (0, 1) := by
    rw [dirScan_split, b1]; decide
  unfold bestDir
  rw [hcd]
  exact b2

set_option maxRecDepth 3500 in
theorem hb4_pre : preprocess_image hb4 = some hb4 := by
  have hco : coordsOf hb4T = hb4C := by decide
  have hdu : dirUnit (ocvDir ((0, 1) : Int × Int)) = some (⟨0, 1⟩, ⟨-1, 1⟩) := by decide
  have hcs : deskewCS ((⟨0, 1⟩ : Fr), (⟨-1, 1⟩ : Fr)) = (⟨1, 1⟩, ⟨0, 1⟩) := by decide
  have hm : invAff (rotMat (frOfNat (hb4T.w / 2)) (frOfNat (hb4T.h / 2)) ⟨1, 1⟩ ⟨0, 1⟩) = ⟨⟨1, 1⟩, ⟨0, 1⟩, ⟨0, 1⟩, ⟨0, 1⟩, ⟨1, 1⟩, ⟨0, 1⟩⟩ := by decide
  simp only [preprocess_image, hb4_thresh, hco, hb4_bestdir, hdu, hcs, hm]
  decide

/-- A pure black/white 4x4 checkerboard (zero skew). -/
def cb4 : Img := ⟨[[0,255,0,255],[255,0,255,0],[0,255,0,255],[255,0,255,0]]⟩

def cb4B : Img := ⟨[[128, 128, 128, 128], [128, 128, 128, 128], [128, 128, 128, 128], [128, 128, 128, 128]]⟩

def cb4T : Img := ⟨[[255, 255, 255, 255], [255, 255, 255, 255], [255, 255, 255, 255], [255, 255, 255, 255]]⟩

set_option maxRecDepth 3500 in
theorem cb4_blur : gaussianBlur3 cb4 = cb4B := by decide

set_option maxRecDepth 3500 in
theorem cb4_musum : muSum cb4B 0 256 0 = 2048 := by
  have m1 : muSum cb4B 0 32 0 = 0 := by decide
  have m2 : muSum cb4B 0 64 0 = 0 := by
    rw [show (64 : Nat) = 32 + 32 from rfl, muSum_split, m1]; decide
  have m3 : muSum cb4B 0 96 0 = 0 := by
    rw [show (96 : Nat) = 64 + 32 from rfl, muSum_split, m2]; decide
  have m4 : muSum cb4B 0 128 0 = 0 := by
    rw [show (128 : Nat) = 96 + 32 from rfl, muSum_split, m3]; decide
  have m5 : muSum cb4B 0 160 0 = 2048 := by
    rw [show (160 : Nat) = 128 + 32 from rfl, muSum_split, m4]; decide
  have m6 : muSum cb4B 0 192 0 = 2048 := by
    rw [show (192 : Nat) = 160 + 32 from rfl, muSum_split, m5]; decide
  have m7 : muSum cb4B 0 224 0 = 2048 := by
    rw [show (224 : Nat) = 192 + 32 from rfl, muSum_split, m6]; decide
  have m8 : muSum cb4B 0 256 0 = 2048 := by
    rw [show (256 : Nat) = 224 + 32 from rfl, muSum_split, m7]; decide
  exact m8

set_option maxRecDepth 3500 in
theorem cb4_otsu : otsuThreshold cb4B = 0 := by
  have s1 : otsuScan ⟨16, 1⟩ ⟨128, 1⟩ cb4B 0 8 ⟨frZero, frZero, frZero, 0⟩ = ⟨⟨0, 1⟩, ⟨0, 1⟩, ⟨0, 1⟩, 0⟩ := by decide
  have s2 : otsuScan ⟨16, 1⟩ ⟨128, 1⟩ cb4B 0 16 ⟨frZero, frZero, frZero, 0⟩ = ⟨⟨0, 1⟩, ⟨0, 1⟩, ⟨0, 1⟩, 0⟩ := by
    rw [show (16 : Nat) = 8 + 8 from rfl, otsuScan_split, s1]; decide
  have s3 : otsuScan ⟨16, 1⟩ ⟨128, 1⟩ cb4B 0 24 ⟨frZero, frZero, frZero, 0⟩ = ⟨⟨0, 1⟩, ⟨0, 1⟩, ⟨0, 1⟩, 0⟩ := by
    rw [show (24 : Nat) = 16 + 8 from rfl, otsuScan_split, s2]; decide
  have s4 : otsuScan ⟨16, 1⟩ ⟨128, 1⟩ cb4B 0 32 ⟨frZero, frZero, frZero, 0⟩ = ⟨⟨0, 1⟩, ⟨0, 1⟩, ⟨0, 1⟩, 0⟩ := by
    rw [show (32 : Nat) = 24 + 8 from rfl, otsuScan_split, s3]; decide
  have s5 : otsuScan ⟨16, 1⟩ ⟨128, 1⟩ cb4B 0 40 ⟨frZero, frZero, frZero, 0⟩ = ⟨⟨0, 1⟩, ⟨0, 1⟩, ⟨0, 1⟩, 0⟩ := by
    rw [show (40 : Nat) = 32 + 8 from rfl, otsuScan_split, s4]; decide
  have s6 : otsuScan ⟨16, 1⟩ ⟨128, 1⟩ cb4B 0 48 ⟨frZero, frZero, frZero, 0⟩ = ⟨⟨0, 1⟩, ⟨0, 1⟩, ⟨0, 1⟩, 0⟩ := by
    rw [show (48 : Nat) = 40 + 8 from rfl, otsuScan_split, s5]; decide
  have s7 : otsuScan ⟨16, 1⟩ ⟨128, 1⟩ cb4B 0 56 ⟨frZero, frZero, frZero, 0⟩ = ⟨⟨0, 1⟩, ⟨0, 1⟩, ⟨0, 1⟩, 0⟩ := by
    rw [show (56 : Nat) = 48 + 8 from rfl, otsuScan_split, s6]; decide
  have s8 : otsuScan ⟨16, 1⟩ ⟨128, 1⟩ cb4B 0 64 ⟨frZero, frZero, frZero, 0⟩ = ⟨⟨0, 1⟩, ⟨0, 1⟩, ⟨0, 1⟩, 0⟩ := by
    rw [show (64 : Nat) = 56 + 8 from rfl, otsuScan_split, s7]; decide
  have s9 : otsuScan ⟨16, 1⟩ ⟨128, 1⟩ cb4B 0 72 ⟨frZero, frZero, frZero, 0⟩ = ⟨⟨0, 1⟩, ⟨0, 1⟩, ⟨0, 1⟩, 0⟩ := by
    rw [show (72 : Nat) = 64 + 8 from rfl, otsuScan_split, s8]; decide
  have s10 : otsuScan ⟨16, 1⟩ ⟨128, 1⟩ cb4B 0 80 ⟨frZero, frZero, frZero, 0⟩ = ⟨⟨0, 1⟩, ⟨0, 1⟩, ⟨0, 1⟩, 0⟩ := by
    rw [show (80 : Nat) = 72 + 8 from rfl, otsuScan_split, s9]; decide
  have s11 : otsuScan ⟨16, 1⟩ ⟨128, 1⟩ cb4B 0 88 ⟨frZero, frZero, frZero, 0⟩ = ⟨⟨0, 1⟩, ⟨0, 1⟩, ⟨0, 1⟩, 0⟩ := by
    rw [show (88 : Nat) = 80 + 8 from rfl, otsuScan_split, s10]; decide
  have s12 : otsuScan ⟨16, 1⟩ ⟨128, 1⟩ cb4B 0 96 ⟨frZero, frZero, frZero, 0⟩ = ⟨⟨0, 1⟩, ⟨0, 1⟩, ⟨0, 1⟩, 0⟩ := by
    rw [show (96 : Nat) = 88 + 8 from rfl, otsuScan_split, s11]; decide
  have s13 : otsuScan ⟨16, 1⟩ ⟨128, 1⟩ cb4B 0 104 ⟨frZero, frZero, frZero, 0⟩ = ⟨⟨0, 1⟩, ⟨0, 1⟩, ⟨0, 1⟩, 0⟩ := by
    rw [show (104 : Nat) = 96 + 8 from rfl, otsuScan_split, s12]; decide
  have s14 : otsuScan ⟨16, 1⟩ ⟨128, 1⟩ cb4B 0 112 ⟨frZero, frZero, frZero, 0⟩ = ⟨⟨0, 1⟩, ⟨0, 1⟩, ⟨0, 1⟩, 0⟩ := by
    rw [show (112 : Nat) = 104 + 8 from rfl, otsuScan_split, s13]; decide
  have s15 : otsuScan ⟨16, 1⟩ ⟨128, 1⟩ cb4B 0 120 ⟨frZero, frZero, frZero, 0⟩ = ⟨⟨0, 1⟩, ⟨0, 1⟩, ⟨0, 1⟩, 0⟩ := by
    rw [show (120 : Nat) = 112 + 8 from rfl, otsuScan_split, s14]; decide
  have s16 : otsuScan ⟨16, 1⟩ ⟨128, 1⟩ cb4B 0 128 ⟨frZero, frZero, frZero, 0⟩ = ⟨⟨0, 1⟩, ⟨0, 1⟩, ⟨0, 1⟩, 0⟩ := by
    rw [show (128 : Nat) = 120 + 8 from rfl, otsuScan_split, s15]; decide
  have s17 : otsuScan ⟨16, 1⟩ ⟨128, 1⟩ cb4B 0 136 ⟨frZero, frZero, frZero, 0⟩ = ⟨⟨1, 1⟩, ⟨0, 1⟩, ⟨0, 1⟩, 0⟩ := by
    rw [show (136 : Nat) = 128 + 8 from rfl, otsuScan_split, s16]; decide
  have s18 : otsuScan ⟨16, 1⟩ ⟨128, 1⟩ cb4B 0 144 ⟨frZero, frZero, frZero, 0⟩ = ⟨⟨1, 1⟩, ⟨0, 1⟩, ⟨0, 1⟩, 0⟩ := by
    rw [show (144 : Nat) = 136 + 8 from rfl, otsuScan_split, s17]; decide
  have s19 : otsuScan ⟨16, 1⟩ ⟨128, 1⟩ cb4B 0 152 ⟨frZero, frZero, frZero, 0⟩ = ⟨⟨1, 1⟩, ⟨0, 1⟩, ⟨0, 1⟩, 0⟩ := by
    rw [show (152 : Nat) = 144 + 8 from rfl, otsuScan_split, s18]; decide
  have s20 : otsuScan ⟨16, 1⟩ ⟨128, 1⟩ cb4B 0 160 ⟨frZero, frZero, frZero, 0⟩ = ⟨⟨1, 1⟩, ⟨0, 1⟩, ⟨0, 1⟩, 0⟩ := by
    rw [show (160 : Nat) = 152 + 8 from rfl, otsuScan_split, s19]; decide
  have s21 : otsuScan ⟨16, 1⟩ ⟨128, 1⟩ cb4B 0 168 ⟨frZero, frZero, frZero, 0⟩ = ⟨⟨1, 1⟩, ⟨0, 1⟩, ⟨0, 1⟩, 0⟩ := by
    rw [show (168 : Nat) = 160 + 8 from rfl, otsuScan_split, s20]; decide
  have s22 : otsuScan ⟨16, 1⟩ ⟨128, 1⟩ cb4B 0 176 ⟨frZero, frZero, frZero, 0⟩ = ⟨⟨1, 1⟩, ⟨0, 1⟩, ⟨0, 1⟩, 0⟩ := by
    rw [show (176 : Nat) = 168 + 8 from rfl, otsuScan_split, s21]; decide
  have s23 : otsuScan ⟨16, 1⟩ ⟨128, 1⟩ cb4B 0 184 ⟨frZero, frZero, frZero, 0⟩ = ⟨⟨1, 1⟩, ⟨0, 1⟩, ⟨0, 1⟩, 0⟩ := by
    rw [show (184 : Nat) = 176 + 8 from rfl, otsuScan_split, s22]; decide
  have s24 : otsuScan ⟨16, 1⟩ ⟨128, 1⟩ cb4B 0 192 ⟨frZero, frZero, frZero, 0⟩ = ⟨⟨1, 1⟩, ⟨0, 1⟩, ⟨0, 1⟩, 0⟩ := by
    rw [show (192 : Nat) = 184 + 8 from rfl, otsuScan_split, s23]; decide
  have s25 : otsuScan ⟨16, 1⟩ ⟨128, 1⟩ cb4B 0 200 ⟨frZero, frZero, frZero, 0⟩ = ⟨⟨1, 1⟩, ⟨0, 1⟩, ⟨0, 1⟩, 0⟩ := by
    rw [show (200 : Nat) = 192 + 8 from rfl, otsuScan_split, s24]; decide
  have s26 : otsuScan ⟨16, 1⟩ ⟨128, 1⟩ cb4B 0 208 ⟨frZero, frZero, frZero, 0⟩ = ⟨⟨1, 1⟩, ⟨0, 1⟩, ⟨0, 1⟩, 0⟩ := by
    rw [show (208 : Nat) = 200 + 8 from rfl, otsuScan_split, s25]; decide
  have s27 : otsuScan ⟨16, 1⟩ ⟨128, 1⟩ cb4B 0 216 ⟨frZero, frZero, frZero, 0⟩ = ⟨⟨1, 1⟩, ⟨0, 1⟩, ⟨0, 1⟩, 0⟩ := by
    rw [show (216 : Nat) = 208 + 8 from rfl, otsuScan_split, s26]; decide
  have s28 : otsuScan ⟨16, 1⟩ ⟨128, 1⟩ cb4B 0 224 ⟨frZero, frZero, frZero, 0⟩ = ⟨⟨1, 1⟩, ⟨0, 1⟩, ⟨0, 1⟩, 0⟩ := by
    rw [show (224 : Nat) = 216 + 8 from rfl, otsuScan_split, s27]; decide
  have s29 : otsuScan ⟨16, 1⟩ ⟨128, 1⟩ cb4B 0 232 ⟨frZero, frZero, frZero, 0⟩ = ⟨⟨1, 1⟩, ⟨0, 1⟩, ⟨0, 1⟩, 0⟩ := by
    rw [show (232 : Nat) = 224 + 8 from rfl, otsuScan_split, s28]; decide
  have s30 : otsuScan ⟨16, 1⟩ ⟨128, 1⟩ cb4B 0 240 ⟨frZero, frZero, frZero, 0⟩ = ⟨⟨1, 1⟩, ⟨0, 1⟩, ⟨0, 1⟩, 0⟩ := by
    rw [show (240 : Nat) = 232 + 8 from rfl, otsuScan_split, s29]; decide
  have s31 : otsuScan ⟨16, 1⟩ ⟨128, 1⟩ cb4B 0 248 ⟨frZero, frZero, frZero, 0⟩ = ⟨⟨1, 1⟩, ⟨0, 1⟩, ⟨0, 1⟩, 0⟩ := by
    rw [show (248 : Nat) = 240 + 8 from rfl, otsuScan_split, s30]; decide
  have s32 : otsuScan ⟨16, 1⟩ ⟨128, 1⟩ cb4B 0 256 ⟨frZero, frZero, frZero, 0⟩ = ⟨⟨1, 1⟩, ⟨0, 1⟩, ⟨0, 1⟩, 0⟩ := by
    rw [show (256 : Nat) = 248 + 8 from rfl, otsuScan_split, s31]; decide
  rw [otsuThreshold_eq, cb4_musum,
    show frOfNat (cb4B.h * cb4B.w) = (⟨16, 1⟩ : Fr) from by decide,
    show frDiv (frOfNat 2048) (⟨16, 1⟩ : Fr) = (⟨128, 1⟩ : Fr) from by decide,
    s32]
  rfl

set_option maxRecDepth 3500 in
theorem cb4_thresh : threshOf cb4 = cb4T := by
  unfold threshOf
  rw [cb4_blur]
  unfold applyOtsu
  simp only [cb4_otsu]
  decide

def cb4C : List (Int × Int) := [(0, 0), (0, 1), (0, 2), (0, 3), (1, 0), (1, 1), (1, 2), (1, 3), (2, 0), (2, 1), (2, 2), (2, 3), (3, 0), (3, 1), (3, 2), (3, 3)]

def cb4D1 : List (Int × Int) := [(0, 1), (0, 2), (0, 3), (1, 0), (1, 1), (1, 2), (1, 3), (2, 0), (2, 1), (2, 2), (2, 3), (3, 0), (3, 1), (3, 2), (3, 3), (0, -1), (0, 1), (0, 2), (1, -1), (1, 0), (1, 1), (1, 2), (2, -1), (2, 0), (2, 1), (2, 2), (3, -1), (3, 0), (3, 1), (3, 2)]
def cb4D2 : List (Int × Int) := [(0, -2), (0, -1), (0, 1), (1, -2), (1, -1), (1, 0), (1, 1), (2, -2), (2, -1), (2, 0), (2, 1), (3, -2), (3, -1), (3, 0), (3, 1), (0, -3), (0, -2), (0, -1), (1, -3), (1, -2), (1, -1), (1, 0), (2, -3), (2, -2), (2, -1), (2, 0), (3, -3), (3, -2), (3, -1), (3, 0)]
def cb4D3 : List (Int × Int) := [(-1, 0), (-1, 1), (-1, 2), (-1, 3), (0, 1), (0, 2), (0, 3), (1, 0), (1, 1), (1, 2), (1, 3), (2, 0), (2, 1), (2, 2), (2, 3), (-1, -1), (-1, 0), (-1, 1), (-1, 2), (0, -1), (0, 1), (0, 2), (1, -1), (1, 0), (1, 1), (1, 2), (2, -1), (2, 0), (2, 1), (2, 2)]
def cb4D4 : List (Int × Int) := [(-1, -2), (-1, -1), (-1, 0), (-1, 1), (0, -2), (0, -1), (0, 1), (1, -2), (1, -1), (1, 0), (1, 1), (2, -2), (2, -1), (2, 0), (2, 1), (-1, -3), (-1, -2), (-1, -1), (-1, 0), (0, -3), (0, -2), (0, -1), (1, -3), (1, -2), (1, -1), (1, 0), (2, -3), (2, -2), (2, -1), (2, 0)]
def cb4D5 : List (Int × Int) := [(-2, 0), (-2, 1), (-2, 2), (-2, 3), (-1, 0), (-1, 1), (-1, 2), (-1, 3), (0, 1), (0, 2), (0, 3), (1, 0), (1, 1), (1, 2), (1, 3), (-2, -1), (-2, 0), (-2, 1), (-2, 2), (-1, -1), (-1, 0), (-1, 1), (-1, 2), (0, -1), (0, 1), (0, 2), (1, -1), (1, 0), (1, 1), (1, 2)]
def cb4D6 : List (Int × Int) := [(-2, -2), (-2, -1), (-2, 0), (-2, 1), (-1, -2), (-1, -1), (-1, 0), (-1, 1), (0, -2), (0, -1), (0, 1), (1, -2), (1, -1), (1, 0), (1, 1), (-2, -3), (-2, -2), (-2, -1), (-2, 0), (-1, -3), (-1, -2), (-1, -1), (-1, 0), (0, -3), (0, -2), (0, -1), (1, -3), (1, -2), (1, -1), (1, 0)]
def cb4D7 : List (Int × Int) := [(-3, 0), (-3, 1), (-3, 2), (-3, 3), (-2, 0), (-2, 1), (-2, 2), (-2, 3), (-1, 0), (-1, 1), (-1, 2), (-1, 3), (0, 1), (0, 2), (0, 3), (-3, -1), (-3, 0), (-3, 1), (-3, 2), (-2, -1), (-2, 0), (-2, 1), (-2, 2), (-1, -1), (-1, 0), (-1, 1), (-1, 2), (0, -1), (0, 1), (0, 2)]
def cb4D8 : List (Int × Int) := [(-3, -2), (-3, -1), (-3, 0), (-3, 1), (-2, -2), (-2, -1), (-2, 0), (-2, 1), (-1, -2), (-1, -1), (-1, 0), (-1, 1), (0, -2), (0, -1), (0, 1), (-3, -3), (-3, -2), (-3, -1), (-3, 0), (-2, -3), (-2, -2), (-2, -1), (-2, 0), (-1, -3), (-1, -2), (-1, -1), (-1, 0), (0, -3), (0, -2), (0, -1)]

set_option maxRecDepth 3500 in
theorem cb4_bestdir : bestDir cb4C = (0, 1) := by
  have hcd : candDirs cb4C = cb4D1 ++ cb4D2 ++ cb4D3 ++ cb4D4 ++ cb4D5 ++ cb4D6 ++ cb4D7 ++ cb4D8 := by decide
  have b1 : dirScan cb4C cb4D1 (0, 1) = (0, 1) := by decide
  have b2 : dirScan cb4C (cb4D1 ++ cb4D2) (0, 1) = (0, 1) := by
    rw [dirScan_split, b1]; decide
  have b3 : dirScan cb4C (cb4D1 ++ cb4D2 ++ cb4D3) (0, 1) = (0, 1) := by
    rw [dirScan_split, b2]; decide
  have b4 : dirScan cb4C (cb4D1 ++ cb4D2 ++ cb4D3 ++ cb4D4) (0, 1) = (0, 1) := by
    rw [dirScan_split, b3]; decide
  have b5 : dirScan cb4C (cb4D1 ++ cb4D2 ++ cb4D3 ++ cb4D4 ++ cb4D5) (0, 1) = (0, 1) := by
    rw [dirScan_split, b4]; decide
  have b6 : dirScan cb4C (cb4D1 ++ cb4D2 ++ cb4D3 ++ cb4D4 ++ cb4D5 ++ cb4D6) (0, 1) = (0, 1) := by
    rw [dirScan_split, b5]; decide
  have b7 : dirScan cb4C (cb4D1 ++ cb4D2 ++ cb4D3 ++ cb4D4 ++ cb4D5 ++ cb4D6 ++ cb4D7) (0, 1) = (0, 1) := by
    rw [dirScan_split, b6]; decide
  have b8 : dirScan cb4C (cb4D1 ++ cb4D2 ++ cb4D3 ++ cb4D4 ++ cb4D5 ++ cb4D6 ++ cb4D7 ++ cb4D8) (0, 1) = (0, 1) := by
    rw [dirScan_split, b7]; decide
  unfold bestDir
  rw [hcd]
  exact b8

set_option maxRecDepth 3500 in
theorem cb4_pre : preprocess_image cb4 = some cb4T := by
  have hco : coordsOf cb4T = cb4C := by decide
  have hdu : dirUnit (ocvDir ((0, 1) : Int × Int)) = some (⟨0, 1⟩, ⟨-1, 1⟩) := by decide
  have hcs : deskewCS ((⟨0, 1⟩ : Fr), (⟨-1, 1⟩ : Fr)) = (⟨1, 1⟩, ⟨0, 1⟩) := by decide
  have hm : invAff (rotMat (frOfNat (cb4T.w / 2)) (frOfNat (cb4T.h / 2)) ⟨1, 1⟩ ⟨0, 1⟩) = ⟨⟨1, 1⟩, ⟨0, 1⟩, ⟨0, 1⟩, ⟨0, 1⟩, ⟨1, 1⟩, ⟨0, 1⟩⟩ := by decide
  simp only [preprocess_image, cb4_thresh, hco, cb4_bestdir, hdu, hcs, hm]
  decide

/-- A black 9x8 page with two isolated white dots at (2,2) and (6,5), so the binarized foreground is two plus-shapes whose minimum-area rectangle is tilted with Pythagorean direction (4, 3). -/
def dumb : Img := mkImg 9 8 (fun i j => if (i = 2 && j = 2) || (i = 6 && j = 5) then 255 else 0)

def dumbB : Img := ⟨[[0, 0, 0, 0, 0, 0, 0, 0], [0, 16, 32, 16, 0, 0, 0, 0], [0, 32, 64, 32, 0, 0, 0, 0], [0, 16, 32, 16, 0, 0, 0, 0], [0, 0, 0, 0, 0, 0, 0, 0], [0, 0, 0, 0, 16, 32, 16, 0], [0, 0, 0, 0, 32, 64, 32, 0], [0, 0, 0, 0, 16, 32, 16, 0], [0, 0, 0, 0, 0, 0, 0, 0]]⟩

def dumbT : Img := ⟨[[0, 0, 0, 0, 0, 0, 0, 0], [0, 0, 255, 0, 0, 0, 0, 0], [0, 255, 255, 255, 0, 0, 0, 0], [0, 0, 255, 0, 0, 0, 0, 0], [0, 0, 0, 0, 0, 0, 0, 0], [0, 0, 0, 0, 0, 255, 0, 0], [0, 0, 0, 0, 255, 255, 255, 0], [0, 0, 0, 0, 0, 255, 0, 0], [0, 0, 0, 0, 0, 0, 0, 0]]⟩

set_option maxRecDepth 3500 in
theorem dumb_blur : gaussianBlur3 dumb = dumbB := by decide

set_option maxRecDepth 3500 in
theorem dumb_musum : muSum dumbB 0 256 0 = 512 := by
  have m1 : muSum dumbB 0 32 0 = 128 := by decide
  have m2 : muSum dumbB 0 64 0 = 384 := by
    rw [show (64 : Nat) = 32 + 32 from rfl, muSum_split, m1]; decide
  have m3 : muSum dumbB 0 96 0 = 512 := by
    rw [show (96 : Nat) = 64 + 32 from rfl, muSum_split, m2]; decide
  have m4 : muSum dumbB 0 128 0 = 512 := by
    rw [show (128 : Nat) = 96 + 32 from rfl, muSum_split, m3]; decide
  have m5 : muSum dumbB 0 160 0 = 512 := by
    rw [show (160 : Nat) = 128 + 32 from rfl, muSum_split, m4]; decide
  have m6 : muSum dumbB 0 192 0 = 512 := by
    rw [show (192 : Nat) = 160 + 32 from rfl, muSum_split, m5]; decide
  have m7 : muSum dumbB 0 224 0 = 512 := by
    rw [show (224 : Nat) = 192 + 32 from rfl, muSum_split, m6]; decide
  have m8 : muSum dumbB 0 256 0 = 512 := by
    rw [show (256 : Nat) = 224 + 32 from rfl, muSum_split, m7]; decide
  exact m8

set_option maxRecDepth 3500 in
theorem dumb_otsu : otsuThreshold dumbB = 16 := by
  have s1 : otsuScan ⟨72, 1⟩ ⟨64, 9⟩ dumbB 0 8 ⟨frZero, frZero, frZero, 0⟩ = ⟨⟨3, 4⟩, ⟨0, 1⟩, ⟨4096, 27⟩, 0⟩ := by decide
  have s2 : otsuScan ⟨72, 1⟩ ⟨64, 9⟩ dumbB 0 16 ⟨frZero, frZero, frZero, 0⟩ = ⟨⟨3, 4⟩, ⟨0, 1⟩, ⟨4096, 27⟩, 0⟩ := by
    rw [show (16 : Nat) = 8 + 8 from rfl, otsuScan_split, s1]; decide
  have s3 : otsuScan ⟨72, 1⟩ ⟨64, 9⟩ dumbB 0 24 ⟨frZero, frZero, frZero, 0⟩ = ⟨⟨31, 36⟩, ⟨64, 31⟩, ⟨1982464, 12555⟩, 16⟩ := by
    rw [show (24 : Nat) = 16 + 8 from rfl, otsuScan_split, s2]; decide
  have s4 : otsuScan ⟨72, 1⟩ ⟨64, 9⟩ dumbB 0 32 ⟨frZero, frZero, frZero, 0⟩ = ⟨⟨31, 36⟩, ⟨64, 31⟩, ⟨1982464, 12555⟩, 16⟩ := by
    rw [show (32 : Nat) = 24 + 8 from rfl, otsuScan_split, s3]; decide
  have s5 : otsuScan ⟨72, 1⟩ ⟨64, 9⟩ dumbB 0 40 ⟨frZero, frZero, frZero, 0⟩ = ⟨⟨35, 36⟩, ⟨192, 35⟩, ⟨1982464, 12555⟩, 16⟩ := by
    rw [show (40 : Nat) = 32 + 8 from rfl, otsuScan_split, s4]; decide
  have s6 : otsuScan ⟨72, 1⟩ ⟨64, 9⟩ dumbB 0 48 ⟨frZero, frZero, frZero, 0⟩ = ⟨⟨35, 36⟩, ⟨192, 35⟩, ⟨1982464, 12555⟩, 16⟩ := by
    rw [show (48 : Nat) = 40 + 8 from rfl, otsuScan_split, s5]; decide
  have s7 : otsuScan ⟨72, 1⟩ ⟨64, 9⟩ dumbB 0 56 ⟨frZero, frZero, frZero, 0⟩ = ⟨⟨35, 36⟩, ⟨192, 35⟩, ⟨1982464, 12555⟩, 16⟩ := by
    rw [show (56 : Nat) = 48 + 8 from rfl, otsuScan_split, s6]; decide
  have s8 : otsuScan ⟨72, 1⟩ ⟨64, 9⟩ dumbB 0 64 ⟨frZero, frZero, frZero, 0⟩ = ⟨⟨35, 36⟩, ⟨192, 35⟩, ⟨1982464, 12555⟩, 16⟩ := by
    rw [show (64 : Nat) = 56 + 8 from rfl, otsuScan_split, s7]; decide
  have s9 : otsuScan ⟨72, 1⟩ ⟨64, 9⟩ dumbB 0 72 ⟨frZero, frZero, frZero, 0⟩ = ⟨⟨1, 1⟩, ⟨16, 3⟩, ⟨1982464, 12555⟩, 16⟩ := by
    rw [show (72 : Nat) = 64 + 8 from rfl, otsuScan_split, s8]; decide
  have s10 : otsuScan ⟨72, 1⟩ ⟨64, 9⟩ dumbB 0 80 ⟨frZero, frZero, frZero, 0⟩ = ⟨⟨1, 1⟩, ⟨16, 3⟩, ⟨1982464, 12555⟩, 16⟩ := by
    rw [show (80 : Nat) = 72 + 8 from rfl, otsuScan_split, s9]; decide
  have s11 : otsuScan ⟨72, 1⟩ ⟨64, 9⟩ dumbB 0 88 ⟨frZero, frZero, frZero, 0⟩ = ⟨⟨1, 1⟩, ⟨16, 3⟩, ⟨1982464, 12555⟩, 16⟩ := by
    rw [show (88 : Nat) = 80 + 8 from rfl, otsuScan_split, s10]; decide
  have s12 : otsuScan ⟨72, 1⟩ ⟨64, 9⟩ dumbB 0 96 ⟨frZero, frZero, frZero, 0⟩ = ⟨⟨1, 1⟩, ⟨16, 3⟩, ⟨1982464, 12555⟩, 16⟩ := by
    rw [show (96 : Nat) = 88 + 8 from rfl, otsuScan_split, s11]; decide
  have s13 : otsuScan ⟨72, 1⟩ ⟨64, 9⟩ dumbB 0 104 ⟨frZero, frZero, frZero, 0⟩ = ⟨⟨1, 1⟩, ⟨16, 3⟩, ⟨1982464, 12555⟩, 16⟩ := by
    rw [show (104 : Nat) = 96 + 8 from rfl, otsuScan_split, s12]; decide
  have s14 : otsuScan ⟨72, 1⟩ ⟨64, 9⟩ dumbB 0 112 ⟨frZero, frZero, frZero, 0⟩ = ⟨⟨1, 1⟩, ⟨16, 3⟩, ⟨1982464, 12555⟩, 16⟩ := by
    rw [show (112 : Nat) = 104 + 8 from rfl, otsuScan_split, s13]; decide
  have s15 : otsuScan ⟨72, 1⟩ ⟨64, 9⟩ dumbB 0 120 ⟨frZero, frZero, frZero, 0⟩ = ⟨⟨1, 1⟩, ⟨16, 3⟩, ⟨1982464, 12555⟩, 16⟩ := by
    rw [show (120 : Nat) = 112 + 8 from rfl, otsuScan_split, s14]; decide
  have s16 : otsuScan ⟨72, 1⟩ ⟨64, 9⟩ dumbB 0 128 ⟨frZero, frZero, frZero, 0⟩ = ⟨⟨1, 1⟩, ⟨16, 3⟩, ⟨1982464, 12555⟩, 16⟩ := by
    rw [show (128 : Nat) = 120 + 8 from rfl, otsuScan_split, s15]; decide
  have s17 : otsuScan ⟨72, 1⟩ ⟨64, 9⟩ dumbB 0 136 ⟨frZero, frZero, frZero, 0⟩ = ⟨⟨1, 1⟩, ⟨16, 3⟩, ⟨1982464, 12555⟩, 16⟩ := by
    rw [show (136 : Nat) = 128 + 8 from rfl, otsuScan_split, s16]; decide
  have s18 : otsuScan ⟨72, 1⟩ ⟨64, 9⟩ dumbB 0 144 ⟨frZero, frZero, frZero, 0⟩ = ⟨⟨1, 1⟩, ⟨16, 3⟩, ⟨1982464, 12555⟩, 16⟩ := by
    rw [show (144 : Nat) = 136 + 8 from rfl, otsuScan_split, s17]; decide
  have s19 : otsuScan ⟨72, 1⟩ ⟨64, 9⟩ dumbB 0 152 ⟨frZero, frZero, frZero, 0⟩ = ⟨⟨1, 1⟩, ⟨16, 3⟩, ⟨1982464, 12555⟩, 16⟩ := by
    rw [show (152 : Nat) = 144 + 8 from rfl, otsuScan_split, s18]; decide
  have s20 : otsuScan ⟨72, 1⟩ ⟨64, 9⟩ dumbB 0 160 ⟨frZero, frZero, frZero, 0⟩ = ⟨⟨1, 1⟩, ⟨16, 3⟩, ⟨1982464, 12555⟩, 16⟩ := by
    rw [show (160 : Nat) = 152 + 8 from rfl, otsuScan_split, s19]; decide
  have s21 : otsuScan ⟨72, 1⟩ ⟨64, 9⟩ dumbB 0 168 ⟨frZero, frZero, frZero, 0⟩ = ⟨⟨1, 1⟩, ⟨16, 3⟩, ⟨1982464, 12555⟩, 16⟩ := by
    rw [show (168 : Nat) = 160 + 8 from rfl, otsuScan_split, s20]; decide
  have s22 : otsuScan ⟨72, 1⟩ ⟨64, 9⟩ dumbB 0 176 ⟨frZero, frZero, frZero, 0⟩ = ⟨⟨1, 1⟩, ⟨16, 3⟩, ⟨1982464, 12555⟩, 16⟩ := by
    rw [show (176 : Nat) = 168 + 8 from rfl, otsuScan_split, s21]; decide
  have s23 : otsuScan ⟨72, 1⟩ ⟨64, 9⟩ dumbB 0 184 ⟨frZero, frZero, frZero, 0⟩ = ⟨⟨1, 1⟩, ⟨16, 3⟩, ⟨1982464, 12555⟩, 16⟩ := by
    rw [show (184 : Nat) = 176 + 8 from rfl, otsuScan_split, s22]; decide
  have s24 : otsuScan ⟨72, 1⟩ ⟨64, 9⟩ dumbB 0 192 ⟨frZero, frZero, frZero, 0⟩ = ⟨⟨1, 1⟩, ⟨16, 3⟩, ⟨1982464, 12555⟩, 16⟩ := by
    rw [show (192 : Nat) = 184 + 8 from rfl, otsuScan_split, s23]; decide
  have s25 : otsuScan ⟨72, 1⟩ ⟨64, 9⟩ dumbB 0 200 ⟨frZero, frZero, frZero, 0⟩ = ⟨⟨1, 1⟩, ⟨16, 3⟩, ⟨1982464, 12555⟩, 16⟩ := by
    rw [show (200 : Nat) = 192 + 8 from rfl, otsuScan_split, s24]; decide
  have s26 : otsuScan ⟨72, 1⟩ ⟨64, 9⟩ dumbB 0 208 ⟨frZero, frZero, frZero, 0⟩ = ⟨⟨1, 1⟩, ⟨16, 3⟩, ⟨1982464, 12555⟩, 16⟩ := by
    rw [show (208 : Nat) = 200 + 8 from rfl, otsuScan_split, s25]; decide
  have s27 : otsuScan ⟨72, 1⟩ ⟨64, 9⟩ dumbB 0 216 ⟨frZero, frZero, frZero, 0⟩ = ⟨⟨1, 1⟩, ⟨16, 3⟩, ⟨1982464, 12555⟩, 16⟩ := by
    rw [show (216 : Nat) = 208 + 8 from rfl, otsuScan_split, s26]; decide
  have s28 : otsuScan ⟨72, 1⟩ ⟨64, 9⟩ dumbB 0 224 ⟨frZero, frZero, frZero, 0⟩ = ⟨⟨1, 1⟩, ⟨16, 3⟩, ⟨1982464, 12555⟩, 16⟩ := by
    rw [show (224 : Nat) = 216 + 8 from rfl, otsuScan_split, s27]; decide
  have s29 : otsuScan ⟨72, 1⟩ ⟨64, 9⟩ dumbB 0 232 ⟨frZero, frZero, frZero, 0⟩ = ⟨⟨1, 1⟩, ⟨16, 3⟩, ⟨1982464, 12555⟩, 16⟩ := by
    rw [show (232 : Nat) = 224 + 8 from rfl, otsuScan_split, s28]; decide
  have s30 : otsuScan ⟨72, 1⟩ ⟨64, 9⟩ dumbB 0 240 ⟨frZero, frZero, frZero, 0⟩ = ⟨⟨1, 1⟩, ⟨16, 3⟩, ⟨1982464, 12555⟩, 16⟩ := by
    rw [show (240 : Nat) = 232 + 8 from rfl, otsuScan_split, s29]; decide
  have s31 : otsuScan ⟨72, 1⟩ ⟨64, 9⟩ dumbB 0 248 ⟨frZero, frZero, frZero, 0⟩ = ⟨⟨1, 1⟩, ⟨16, 3⟩, ⟨1982464, 12555⟩, 16⟩ := by
    rw [show (248 : Nat) = 240 + 8 from rfl, otsuScan_split, s30]; decide
  have s32 : otsuScan ⟨72, 1⟩ ⟨64, 9⟩ dumbB 0 256 ⟨frZero, frZero, frZero, 0⟩ = ⟨⟨1, 1⟩, ⟨16, 3⟩, ⟨1982464, 12555⟩, 16⟩ := by
    rw [show (256 : Nat) = 248 + 8 from rfl, otsuScan_split, s31]; decide
  rw [otsuThreshold_eq, dumb_musum,
    show frOfNat (dumbB.h * dumbB.w) = (⟨72, 1⟩ : Fr) from by decide,
    show frDiv (frOfNat 512) (⟨72, 1⟩ : Fr) = (⟨64, 9⟩ : Fr) from by decide,
    s32]
  rfl

set_option maxRecDepth 3500 in
theorem dumb_thresh : threshOf dumb = dumbT := by
  unfold threshOf
  rw [dumb_blur]
  unfold applyOtsu
  simp only [dumb_otsu]
  decide

def dumbR : Img := ⟨[[0, 0, 0, 81, 143, 30, 3, 0], [0, 3, 7, 255, 255, 0, 0, 0], [0, 2, 3, 255, 219, 89, 0, 0], [0, 0, 0, 17, 0, 0, 0, 0], [0, 0, 0, 0, 0, 0, 0, 0], [0, 0, 0, 81, 143, 30, 3, 0], [0, 3, 7, 255, 255, 0, 0, 0], [0, 2, 3, 255, 219, 89, 0, 0], [0, 0, 0, 17, 0, 0, 0, 0]]⟩

def dumbC : List (Int × Int) := [(1, 2), (2, 1), (2, 2), (2, 3), (3, 2), (5, 5), (6, 4), (6, 5), (6, 6), (7, 5)]

def dumbD1 : List (Int × Int) := [(1, -1), (1, 0), (1, 1), (2, 0), (4, 3), (5, 2), (5, 3), (5, 4), (6, 3), (-1, 1), (0, 1), (0, 2), (1, 1), (3, 4), (4, 3), (4, 4), (4, 5), (5, 4), (-1, 0), (0, -1), (0, 1), (1, 0), (3, 3), (4, 2), (4, 3), (4, 4), (5, 3), (-1, -1), (0, -2), (0, -1)]
def dumbD2 : List (Int × Int) := [(1, -1), (3, 2), (4, 1), (4, 2), (4, 3), (5, 2), (-2, 0), (-1, -1), (-1, 0), (-1, 1), (2, 3), (3, 2), (3, 3), (3, 4), (4, 3), (-4, -3), (-3, -4), (-3, -3), (-3, -2), (-2, -3), (1, -1), (1, 0), (1, 1), (2, 0), (-5, -2), (-4, -3), (-4, -2), (-4, -1), (-3, -2), (-1, 1)]
def dumbD3 : List (Int × Int) := [(0, 1), (0, 2), (1, 1), (-5, -3), (-4, -4), (-4, -3), (-4, -2), (-3, -3), (-1, 0), (0, -1), (0, 1), (1, 0), (-5, -4), (-4, -5), (-4, -4), (-4, -3), (-3, -4), (-1, -1), (0, -2), (0, -1), (1, -1), (-6, -3), (-5, -4), (-5, -3), (-5, -2), (-4, -3), (-2, 0), (-1, -1), (-1, 0), (-1, 1)]

set_option maxRecDepth 3500 in
theorem dumb_bestdir : bestDir dumbC = (4, 3) := by
  have hcd : candDirs dumbC = dumbD1 ++ dumbD2 ++ dumbD3 := by decide
  have b1 : dirScan dumbC dumbD1 (0, 1) = (4, 3) := by decide
  have b2 : dirScan dumbC (dumbD1 ++ dumbD2) (0, 1) = (4, 3) := by
    rw [dirScan_split, b1]; decide
  have b3 : dirScan dumbC (dumbD1 ++ dumbD2 ++ dumbD3) (0, 1) = (4, 3) := by
    rw [dirScan_split, b2]; decide
  unfold bestDir
  rw [hcd]
  exact b3

set_option maxRecDepth 3500 in
theorem dumb_pre : preprocess_image dumb = some dumbR := by
  have hco : coordsOf dumbT = dumbC := by decide
  have hdu : dirUnit (ocvDir ((4, 3) : Int × Int)) = some (⟨3, 5⟩, ⟨-4, 5⟩) := by decide
  have hcs : deskewCS ((⟨3, 5⟩ : Fr), (⟨-4, 5⟩ : Fr)) = (⟨4, 5⟩, ⟨-3, 5⟩) := by decide
  have hm : invAff (rotMat (frOfNat (dumbT.w / 2)) (frOfNat (dumbT.h / 2)) ⟨4, 5⟩ ⟨-3, 5⟩) = ⟨⟨4, 5⟩, ⟨3, 5⟩, ⟨-8, 5⟩, ⟨-3, 5⟩, ⟨4, 5⟩, ⟨16, 5⟩⟩ := by decide
  simp only [preprocess_image, dumb_thresh, hco, dumb_bestdir, hdu, hcs, hm]
  decide

/-- An all-black 2x2 page (no foreground after thresholding). -/
def blk2 : Img := ⟨[[0,0],[0,0]]⟩

def blk2B : Img := ⟨[[0, 0], [0, 0]]⟩

def blk2T : Img := ⟨[[0, 0], [0, 0]]⟩

set_option maxRecDepth 3500 in
theorem blk2_blur : gaussianBlur3 blk2 = blk2B := by decide

set_option maxRecDepth 3500 in
theorem blk2_musum : muSum blk2B 0 256 0 = 0 := by
  have m1 : muSum blk2B 0 32 0 = 0 := by decide
  have m2 : muSum blk2B 0 64 0 = 0 := by
    rw [show (64 : Nat) = 32 + 32 from rfl, muSum_split, m1]; decide
  have m3 : muSum blk2B 0 96 0 = 0 := by
    rw [show (96 : Nat) = 64 + 32 from rfl, muSum_split, m2]; decide
  have m4 : muSum blk2B 0 128 0 = 0 := by
    rw [show (128 : Nat) = 96 + 32 from rfl, muSum_split, m3]; decide
  have m5 : muSum blk2B 0 160 0 = 0 := by
    rw [show (160 : Nat) = 128 + 32 from rfl, muSum_split, m4]; decide
  have m6 : muSum blk2B 0 192 0 = 0 := by
    rw [show (192 : Nat) = 160 + 32 from rfl, muSum_split, m5]; decide
  have m7 : muSum blk2B 0 224 0 = 0 := by
    rw [show (224 : Nat) = 192 + 32 from rfl, muSum_split, m6]; decide
  have m8 : muSum blk2B 0 256 0 = 0 := by
    rw [show (256 : Nat) = 224 + 32 from rfl, muSum_split, m7]; decide
  exact m8

set_option maxRecDepth 3500 in
theorem blk2_otsu : otsuThreshold blk2B = 0 := by
  have s1 : otsuScan ⟨4, 1⟩ ⟨0, 1⟩ blk2B 0 8 ⟨frZero, frZero, frZero, 0⟩ = ⟨⟨1, 1⟩, ⟨0, 1⟩, ⟨0, 1⟩, 0⟩ := by decide
  have s2 : otsuScan ⟨4, 1⟩ ⟨0, 1⟩ blk2B 0 16 ⟨frZero, frZero, frZero, 0⟩ = ⟨⟨1, 1⟩, ⟨0, 1⟩, ⟨0, 1⟩, 0⟩ := by
    rw [show (16 : Nat) = 8 + 8 from rfl, otsuScan_split, s1]; decide
  have s3 : otsuScan ⟨4, 1⟩ ⟨0, 1⟩ blk2B 0 24 ⟨frZero, frZero, frZero, 0⟩ = ⟨⟨1, 1⟩, ⟨0, 1⟩, ⟨0, 1⟩, 0⟩ := by
    rw [show (24 : Nat) = 16 + 8 from rfl, otsuScan_split, s2]; decide
  have s4 : otsuScan ⟨4, 1⟩ ⟨0, 1⟩ blk2B 0 32 ⟨frZero, frZero, frZero, 0⟩ = ⟨⟨1, 1⟩, ⟨0, 1⟩, ⟨0, 1⟩, 0⟩ := by
    rw [show (32 : Nat) = 24 + 8 from rfl, otsuScan_split, s3]; decide
  have s5 : otsuScan ⟨4, 1⟩ ⟨0, 1⟩ blk2B 0 40 ⟨frZero, frZero, frZero, 0⟩ = ⟨⟨1, 1⟩, ⟨0, 1⟩, ⟨0, 1⟩, 0⟩ := by
    rw [show (40 : Nat) = 32 + 8 from rfl, otsuScan_split, s4]; decide
  have s6 : otsuScan ⟨4, 1⟩ ⟨0, 1⟩ blk2B 0 48 ⟨frZero, frZero, frZero, 0⟩ = ⟨⟨1, 1⟩, ⟨0, 1⟩, ⟨0, 1⟩, 0⟩ := by
    rw [show (48 : Nat) = 40 + 8 from rfl, otsuScan_split, s5]; decide
  have s7 : otsuScan ⟨4, 1⟩ ⟨0, 1⟩ blk2B 0 56 ⟨frZero, frZero, frZero, 0⟩ = ⟨⟨1, 1⟩, ⟨0, 1⟩, ⟨0, 1⟩, 0⟩ := by
    rw [show (56 : Nat) = 48 + 8 from rfl, otsuScan_split, s6]; decide
  have s8 : otsuScan ⟨4, 1⟩ ⟨0, 1⟩ blk2B 0 64 ⟨frZero, frZero, frZero, 0⟩ = ⟨⟨1, 1⟩, ⟨0, 1⟩, ⟨0, 1⟩, 0⟩ := by
    rw [show (64 : Nat) = 56 + 8 from rfl, otsuScan_split, s7]; decide
  have s9 : otsuScan ⟨4, 1⟩ ⟨0, 1⟩ blk2B 0 72 ⟨frZero, frZero, frZero, 0⟩ = ⟨⟨1, 1⟩, ⟨0, 1⟩, ⟨0, 1⟩, 0⟩ := by
    rw [show (72 : Nat) = 64 + 8 from rfl, otsuScan_split, s8]; decide
  have s10 : otsuScan ⟨4, 1⟩ ⟨0, 1⟩ blk2B 0 80 ⟨frZero, frZero, frZero, 0⟩ = ⟨⟨1, 1⟩, ⟨0, 1⟩, ⟨0, 1⟩, 0⟩ := by
    rw [show (80 : Nat) = 72 + 8 from rfl, otsuScan_split, s9]; decide
  have s11 : otsuScan ⟨4, 1⟩ ⟨0, 1⟩ blk2B 0 88 ⟨frZero, frZero, frZero, 0⟩ = ⟨⟨1, 1⟩, ⟨0, 1⟩, ⟨0, 1⟩, 0⟩ := by
    rw [show (88 : Nat) = 80 + 8 from rfl, otsuScan_split, s10]; decide
  have s12 : otsuScan ⟨4, 1⟩ ⟨0, 1⟩ blk2B 0 96 ⟨frZero, frZero, frZero, 0⟩ = ⟨⟨1, 1⟩, ⟨0, 1⟩, ⟨0, 1⟩, 0⟩ := by
    rw [show (96 : Nat) = 88 + 8 from rfl, otsuScan_split, s11]; decide
  have s13 : otsuScan ⟨4, 1⟩ ⟨0, 1⟩ blk2B 0 104 ⟨frZero, frZero, frZero, 0⟩ = ⟨⟨1, 1⟩, ⟨0, 1⟩, ⟨0, 1⟩, 0⟩ := by
    rw [show (104 : Nat) = 96 + 8 from rfl, otsuScan_split, s12]; decide
  have s14 : otsuScan ⟨4, 1⟩ ⟨0, 1⟩ blk2B 0 112 ⟨frZero, frZero, frZero, 0⟩ = ⟨⟨1, 1⟩, ⟨0, 1⟩, ⟨0, 1⟩, 0⟩ := by
    rw [show (112 : Nat) = 104 + 8 from rfl, otsuScan_split, s13]; decide
  have s15 : otsuScan ⟨4, 1⟩ ⟨0, 1⟩ blk2B 0 120 ⟨frZero, frZero, frZero, 0⟩ = ⟨⟨1, 1⟩, ⟨0, 1⟩, ⟨0, 1⟩, 0⟩ := by
    rw [show (120 : Nat) = 112 + 8 from rfl, otsuScan_split, s14]; decide
  have s16 : otsuScan ⟨4, 1⟩ ⟨0, 1⟩ blk2B 0 128 ⟨frZero, frZero, frZero, 0⟩ = ⟨⟨1, 1⟩, ⟨0, 1⟩, ⟨0, 1⟩, 0⟩ := by
    rw [show (128 : Nat) = 120 + 8 from rfl, otsuScan_split, s15]; decide
  have s17 : otsuScan ⟨4, 1⟩ ⟨0, 1⟩ blk2B 0 136 ⟨frZero, frZero, frZero, 0⟩ = ⟨⟨1, 1⟩, ⟨0, 1⟩, ⟨0, 1⟩, 0⟩ := by
    rw [show (136 : Nat) = 128 + 8 from rfl, otsuScan_split, s16]; decide
  have s18 : otsuScan ⟨4, 1⟩ ⟨0, 1⟩ blk2B 0 144 ⟨frZero, frZero, frZero, 0⟩ = ⟨⟨1, 1⟩, ⟨0, 1⟩, ⟨0, 1⟩, 0⟩ := by
    rw [show (144 : Nat) = 136 + 8 from rfl, otsuScan_split, s17]; decide
  have s19 : otsuScan ⟨4, 1⟩ ⟨0, 1⟩ blk2B 0 152 ⟨frZero, frZero, frZero, 0⟩ = ⟨⟨1, 1⟩, ⟨0, 1⟩, ⟨0, 1⟩, 0⟩ := by
    rw [show (152 : Nat) = 144 + 8 from rfl, otsuScan_split, s18]; decide
  have s20 : otsuScan ⟨4, 1⟩ ⟨0, 1⟩ blk2B 0 160 ⟨frZero, frZero, frZero, 0⟩ = ⟨⟨1, 1⟩, ⟨0, 1⟩, ⟨0, 1⟩, 0⟩ := by
    rw [show (160 : Nat) = 152 + 8 from rfl, otsuScan_split, s19]; decide
  have s21 : otsuScan ⟨4, 1⟩ ⟨0, 1⟩ blk2B 0 168 ⟨frZero, frZero, frZero, 0⟩ = ⟨⟨1, 1⟩, ⟨0, 1⟩, ⟨0, 1⟩, 0⟩ := by
    rw [show (168 : Nat) = 160 + 8 from rfl, otsuScan_split, s20]; decide
  have s22 : otsuScan ⟨4, 1⟩ ⟨0, 1⟩ blk2B 0 176 ⟨frZero, frZero, frZero, 0⟩ = ⟨⟨1, 1⟩, ⟨0, 1⟩, ⟨0, 1⟩, 0⟩ := by
    rw [show (176 : Nat) = 168 + 8 from rfl, otsuScan_split, s21]; decide
  have s23 : otsuScan ⟨4, 1⟩ ⟨0, 1⟩ blk2B 0 184 ⟨frZero, frZero, frZero, 0⟩ = ⟨⟨1, 1⟩, ⟨0, 1⟩, ⟨0, 1⟩, 0⟩ := by
    rw [show (184 : Nat) = 176 + 8 from rfl, otsuScan_split, s22]; decide
  have s24 : otsuScan ⟨4, 1⟩ ⟨0, 1⟩ blk2B 0 192 ⟨frZero, frZero, frZero, 0⟩ = ⟨⟨1, 1⟩, ⟨0, 1⟩, ⟨0, 1⟩, 0⟩ := by
    rw [show (192 : Nat) = 184 + 8 from rfl, otsuScan_split, s23]; decide
  have s25 : otsuScan ⟨4, 1⟩ ⟨0, 1⟩ blk2B 0 200 ⟨frZero, frZero, frZero, 0⟩ = ⟨⟨1, 1⟩, ⟨0, 1⟩, ⟨0, 1⟩, 0⟩ := by
    rw [show (200 : Nat) = 192 + 8 from rfl, otsuScan_split, s24]; decide
  have s26 : otsuScan ⟨4, 1⟩ ⟨0, 1⟩ blk2B 0 208 ⟨frZero, frZero, frZero, 0⟩ = ⟨⟨1, 1⟩, ⟨0, 1⟩, ⟨0, 1⟩, 0⟩ := by
    rw [show (208 : Nat) = 200 + 8 from rfl, otsuScan_split, s25]; decide
  have s27 : otsuScan ⟨4, 1⟩ ⟨0, 1⟩ blk2B 0 216 ⟨frZero, frZero, frZero, 0⟩ = ⟨⟨1, 1⟩, ⟨0, 1⟩, ⟨0, 1⟩, 0⟩ := by
    rw [show (216 : Nat) = 208 + 8 from rfl, otsuScan_split, s26]; decide
  have s28 : otsuScan ⟨4, 1⟩ ⟨0, 1⟩ blk2B 0 224 ⟨frZero, frZero, frZero, 0⟩ = ⟨⟨1, 1⟩, ⟨0, 1⟩, ⟨0, 1⟩, 0⟩ := by
    rw [show (224 : Nat) = 216 + 8 from rfl, otsuScan_split, s27]; decide
  have s29 : otsuScan ⟨4, 1⟩ ⟨0, 1⟩ blk2B 0 232 ⟨frZero, frZero, frZero, 0⟩ = ⟨⟨1, 1⟩, ⟨0, 1⟩, ⟨0, 1⟩, 0⟩ := by
    rw [show (232 : Nat) = 224 + 8 from rfl, otsuScan_split, s28]; decide
  have s30 : otsuScan ⟨4, 1⟩ ⟨0, 1⟩ blk2B 0 240 ⟨frZero, frZero, frZero, 0⟩ = ⟨⟨1, 1⟩, ⟨0, 1⟩, ⟨0, 1⟩, 0⟩ := by
    rw [show (240 : Nat) = 232 + 8 from rfl, otsuScan_split, s29]; decide
  have s31 : otsuScan ⟨4, 1⟩ ⟨0, 1⟩ blk2B 0 248 ⟨frZero, frZero, frZero, 0⟩ = ⟨⟨1, 1⟩, ⟨0, 1⟩, ⟨0, 1⟩, 0⟩ := by
    rw [show (248 : Nat) = 240 + 8 from rfl, otsuScan_split, s30]; decide
  have s32 : otsuScan ⟨4, 1⟩ ⟨0, 1⟩ blk2B 0 256 ⟨frZero, frZero, frZero, 0⟩ = ⟨⟨1, 1⟩, ⟨0, 1⟩, ⟨0, 1⟩, 0⟩ := by
    rw [show (256 : Nat) = 248 + 8 from rfl, otsuScan_split, s31]; decide
  rw [otsuThreshold_eq, blk2_musum,
    show frOfNat (blk2B.h * blk2B.w) = (⟨4, 1⟩ : Fr) from by decide,
    show frDiv (frOfNat 0) (⟨4, 1⟩ : Fr) = (⟨0, 1⟩ : Fr) from by decide,
    s32]
  rfl

set_option maxRecDepth 3500 in
theorem blk2_thresh : threshOf blk2 = blk2T := by
  unfold threshOf
  rw [blk2_blur]
  unfold applyOtsu
  simp only [blk2_otsu]
  decide

set_option maxRecDepth 3500 in
theorem blk2_pre : preprocess_image blk2 = some blk2 := by
  have hco : coordsOf blk2T = ([] : List (Int × Int)) := by decide
  simp only [preprocess_image, blk2_thresh, hco]
  decide

/-!
## Structural lemmas about the pipeline
-/

theorem mkImg_h (h w : Nat) (f : Nat → Nat → Nat) : (mkImg h w f).h = h := by
  simp [mkImg, Img.h]

theorem mkImg_w (h w : Nat) (f : Nat → Nat → Nat) (hh : h ≠ 0) :
    (mkImg h w f).w = w := by
  unfold mkImg Img.w
  cases h with
  | zero => omega
  | succ n =>
    rw [List.range_succ_eq_map]
    simp

theorem img_w_of_h_zero (s : Img) (hs : s.h = 0) : s.w = 0 := by
  unfold Img.h at hs
  unfold Img.w
  rw [List.length_eq_zero] at hs
  rw [hs]
  rfl

/-- An image built at another image's own dimensions has those dimensions,
including the degenerate zero-height case. -/
theorem mkImg_self_dims (s : Img) (f : Nat → Nat → Nat) :
    (mkImg s.h s.w f).h = s.h ∧ (mkImg s.h s.w f).w = s.w := by
  refine ⟨mkImg_h _ _ _, ?_⟩
  by_cases hh : s.h = 0
  · rw [hh, img_w_of_h_zero s hh]
    rfl
  · exact mkImg_w _ _ _ hh

theorem gaussianBlur3_shape (img : Img) :
    gaussianBlur3 img = mkImg img.h img.w (blurPx img) := rfl

theorem applyOtsu_shape (img : Img) :
    applyOtsu img
      = mkImg img.h img.w (fun i j => if otsuThreshold img < img.px i j then 255 else 0) :=
  rfl

theorem warpAffineCubic_shape (src : Img) (m : Aff) :
    warpAffineCubic src m = mkImg src.h src.w (warpPx src m) := rfl

theorem threshOf_dims (img : Img) :
    (threshOf img).h = img.h ∧ (threshOf img).w = img.w := by
  unfold threshOf
  rw [applyOtsu_shape]
  have ha := mkImg_self_dims (gaussianBlur3 img)
    (fun i j => if otsuThreshold (gaussianBlur3 img)
        < (gaussianBlur3 img).px i j then 255 else 0)
  rw [ha.1, ha.2, gaussianBlur3_shape]
  exact mkImg_self_dims img (blurPx img)

theorem getD_getD_binary (rows : List (List Nat)) (i j : Nat)
    (hro : ∀ r ∈ rows, ∀ v ∈ r, v = 0 ∨ v = 255) :
    (rows.getD i []).getD j 0 = 0 ∨ (rows.getD i []).getD j 0 = 255 := by
  by_cases hi : i < rows.length
  · have hr : rows.getD i [] ∈ rows := by
      rw [List.getD_eq_getElem rows [] hi]
      exact List.getElem_mem hi
    by_cases hj : j < (rows.getD i []).length
    · refine hro _ hr _ ?_
      rw [List.getD_eq_getElem _ 0 hj]
      exact List.getElem_mem hj
    · left
      rw [List.getD_eq_default _ 0 (by omega)]
  · left
    rw [List.getD_eq_default _ [] (by omega)]
    rfl

/-- Every pixel of the Otsu-binarized image is 0 or 255 (out-of-range
accesses default to 0). -/
theorem applyOtsu_px_binary (img : Img) (i j : Nat) :
    (applyOtsu img).px i j = 0 ∨ (applyOtsu img).px i j = 255 := by
  rw [applyOtsu_shape]
  unfold mkImg Img.px
  refine getD_getD_binary _ i j ?_
  intro r hr v hv
  simp only [List.mem_map] at hr
  obtain ⟨a, -, rfl⟩ := hr
  simp only [List.mem_map] at hv
  obtain ⟨b, -, rfl⟩ := hv
  split <;> simp

/-- Case analysis of `_preprocess_image` after a successful decode: either
the foreground was empty and the result is the binarized image itself, or
it is the cubic warp of the binarized image by some affine map. -/
theorem preprocess_image_cases (img out : Img)
    (hpre : preprocess_image img = some out) :
    out = threshOf img ∨ ∃ m : Aff, out = warpAffineCubic (threshOf img) m := by
  simp only [preprocess_image] at hpre
  split at hpre
  · left
    exact (Option.some_injective _ hpre).symm
  · split at hpre
    · exact absurd hpre (by simp)
    · right
      exact ⟨_, (Option.some_injective _ hpre).symm⟩

/-- C9 counterexample: normalization is not pixel-for-pixel idempotent on
every pure black/white zero-skew image. On a 4x4 checkerboard the 3x3
Gaussian smoothing averages every pixel to the mid-level 128, Otsu on the
resulting one-bin histogram selects threshold 0, and thresholding turns
the whole page white: the normalized raster differs from the input in
every originally-black pixel. -/
theorem C9_counterexample : preprocess_image cb4 ≠ some cb4 := by
  rw [cb4_pre]
  decide

/-- C9 as amended: normalization is pixel-for-pixel idempotent on some
pure black/white zero-skew inputs — e.g. a page whose left half is black
and right half is white reproduces itself exactly (blur and Otsu
re-separate the same two classes and the estimated rotation is zero) —
but not on all of them, because the fixed 3x3 Gaussian smoothing can move
thin features across the Otsu threshold before binarization. -/
theorem C9_idempotent_instance :
    (∀ i j, hb4.px i j = 0 ∨ hb4.px i j = 255) ∧
      preprocess_image hb4 = some hb4 := by
  constructor
  · intro i j
    unfold hb4 Img.px
    refine getD_getD_binary _ i j ?_
    intro r hr v hv
    fin_cases hr <;> fin_cases hv <;> simp
  · exact hb4_pre

/-- C4 counterexample: on a decodable source whose binarized foreground is
two plus-shapes along the Pythagorean direction (4, 3), the deskew
rotation runs with cubic interpolation and the normalized raster contains
the intensity 81 at row 0, column 3 — not a binary value — refuting the
claim that the output values stay binary when the rotation is applied.
(The dimensions 9x8 are preserved.) -/
theorem C4_counterexample :
    preprocess_image dumb = some dumbR ∧ dumbR.px 0 3 = 81 ∧
      dumbR.h = dumb.h ∧ dumbR.w = dumb.w ∧
      (81 : Nat) ≠ 0 ∧ (81 : Nat) ≠ 255 :=
  ⟨dumb_pre, by decide, by decide, by decide, by decide, by decide⟩

/-- C4 as amended: for every source image that decodes, the normalized
raster has exactly the input's dimensions; and its intensity values are
guaranteed binary (0 or 255) when the deskew rotation is skipped (no
foreground) — after a rotation by a nonzero angle, cubic interpolation
may produce intermediate values. -/
theorem C4_dims_amended (img out : Img) (hpre : preprocess_image img = some out) :
    (out.h = img.h ∧ out.w = img.w) ∧
      ((coordsOf (threshOf img)).isEmpty = true →
        ∀ i j, out.px i j = 0 ∨ out.px i j = 255) := by
  constructor
  · rcases preprocess_image_cases img out hpre with h | ⟨m, h⟩
    · rw [h]
      exact threshOf_dims img
    · rw [h, warpAffineCubic_shape]
      have hw := mkImg_self_dims (threshOf img) (warpPx (threshOf img) m)
      rw [hw.1, hw.2]
      exact threshOf_dims img
  · intro hemp i j
    simp only [preprocess_image, hemp, if_true] at hpre
    have hout : out = threshOf img := (Option.some_injective _ hpre).symm
    rw [hout]
    unfold threshOf
    exact applyOtsu_px_binary _ i j

theorem C4_dims_amended_witness :
    preprocess_image blk2 = some blk2 ∧
      (coordsOf (threshOf blk2)).isEmpty = true ∧
      (blk2.h = blk2.h ∧ blk2.w = blk2.w) ∧
      (blk2.px 1 1 = 0 ∨ blk2.px 1 1 = 255) :=
  ⟨blk2_pre, by rw [blk2_thresh]; decide,
    (C4_dims_amended blk2 blk2 blk2_pre).1,
    (C4_dims_amended blk2 blk2 blk2_pre).2 (by rw [blk2_thresh]; decide) 1 1⟩

/-- C7: when the binarized image has foreground pixels (and the model is
defined, i.e. the minimum-rectangle side direction normalizes exactly),
the normalized raster is exactly the binarized image warped by the
inverted rotation matrix about `(w // 2, h // 2)` with cubic interpolation
and replicated borders, where the rotation (cosine, sine) follows the
source's rule: for the reported minimum-area-rectangle angle θ ∈ [-90, 0)
given by `(c, s)`, if θ < -45 (that is, `s^2 > c^2`) the rotation angle
is `-(90 + θ)` with cosine `-s` and sine `-c`, otherwise it is `-θ` with
cosine `c` and sine `-s`. -/
theorem C7_deskew_formula (img out : Img)
    (hpre : preprocess_image img = some out)
    (hne : (coordsOf (threshOf img)).isEmpty = false) :
    ∃ c s : Fr,
      dirUnit (ocvDir (bestDir (coordsOf (threshOf img)))) = some (c, s) ∧
        out = warpAffineCubic (threshOf img)
          (invAff (rotMat (frOfNat ((threshOf img).w / 2))
            (frOfNat ((threshOf img).h / 2))
            (if frLt (frMul c c) (frMul s s) then frNeg s else c)
            (if frLt (frMul c c) (frMul s s) then frNeg c else frNeg s))) := by
  simp only [preprocess_image, hne, Bool.false_eq_true, if_false] at hpre
  split at hpre
  · exact absurd hpre (by simp)
  · rename_i cs hdu
    refine ⟨cs.1, cs.2, hdu, ?_⟩
    have hout := (Option.some_injective _ hpre).symm
    rw [hout]
    unfold deskewCS
    by_cases hlt : frLt (frMul cs.1 cs.1) (frMul cs.2 cs.2) = true
    · simp [hlt]
    · simp [hlt]

theorem C7_deskew_formula_witness :
    preprocess_image hb4 = some hb4 ∧
      (coordsOf (threshOf hb4)).isEmpty = false ∧
      (∃ c s : Fr,
        dirUnit (ocvDir (bestDir (coordsOf (threshOf hb4)))) = some (c, s) ∧
          hb4 = warpAffineCubic (threshOf hb4)
            (invAff (rotMat (frOfNat ((threshOf hb4).w / 2))
              (frOfNat ((threshOf hb4).h / 2))
              (if frLt (frMul c c) (frMul s s) then frNeg s else c)
              (if frLt (frMul c c) (frMul s s) then frNeg c else frNeg s)))) :=
  ⟨hb4_pre, by rw [hb4_thresh]; decide,
    C7_deskew_formula hb4 hb4 hb4_pre (by rw [hb4_thresh]; decide)⟩

/-!
## Blank-page analysis (claim C8)

An all-white page survives the whole pipeline unchanged: the blur leaves
a constant image constant, Otsu's scan on a one-bin histogram skips every
candidate (so the threshold is 0 and every pixel is foreground), the
minimum-area rectangle of the full grid of coordinates is axis-aligned
(reported angle -90), the corrected rotation angle is `-(90 + -90) = 0`,
and the warp by the identity map reproduces the page. The empty-foreground
branch is also covered: with no foreground pixel the deskew step is
skipped entirely.
-/

/-- An all-white (255) page. -/
def whiteImg (h w : Nat) : Img := ⟨List.replicate h (List.replicate w 255)⟩

theorem getD_replicate (n : Nat) (a d : Nat) (i : Nat) (hi : i < n) :
    (List.replicate n a).getD i d = a := by
  rw [List.getD_eq_getElem _ _ (by simpa using hi)]
  exact List.getElem_replicate _ (by simpa using hi)

theorem getD_replicate_list (n : Nat) (a : List Nat) (i : Nat) (hi : i < n) :
    (List.replicate n a).getD i [] = a := by
  rw [List.getD_eq_getElem _ _ (by simpa using hi)]
  exact List.getElem_replicate _ (by simpa using hi)

theorem whiteImg_h (h w : Nat) : (whiteImg h w).h = h := by
  simp [whiteImg, Img.h]

theorem whiteImg_w (h w : Nat) (hh : 1 ≤ h) : (whiteImg h w).w = w := by
  unfold whiteImg Img.w
  cases h with
  | zero => omega
  | succ n => simp [List.replicate_succ]

theorem whiteImg_px (h w i j : Nat) (hi : i < h) (hj : j < w) :
    (whiteImg h w).px i j = 255 := by
  unfold whiteImg Img.px
  rw [getD_replicate_list h _ i hi, getD_replicate w _ _ j hj]

/-- A map over `range n` with a constant value is a `replicate`. -/
theorem map_range_const (n : Nat) (f : Nat → List Nat) (c : List Nat)
    (hf : ∀ i, i < n → f i = c) :
    (List.range n).map f = List.replicate n c := by
  rw [List.eq_replicate_iff]
  constructor
  · simp
  · intro b hb
    simp only [List.mem_map, List.mem_range] at hb
    obtain ⟨i, hi, rfl⟩ := hb
    exact hf i hi

theorem map_range_const_nat (n : Nat) (f : Nat → Nat) (c : Nat)
    (hf : ∀ i, i < n → f i = c) :
    (List.range n).map f = List.replicate n c := by
  rw [List.eq_replicate_iff]
  constructor
  · simp
  · intro b hb
    simp only [List.mem_map, List.mem_range] at hb
    obtain ⟨i, hi, rfl⟩ := hb
    exact hf i hi

theorem borderReflect101_lt (n : Nat) (p : Int) (hn : 1 ≤ n)
    (hlo : -1 ≤ p) (hhi : p ≤ (n : Int)) : borderReflect101 n p < n := by
  unfold borderReflect101
  split
  · omega
  · split
    · omega
    · split <;> omega

/-- The blur leaves an all-white page all white. -/
theorem blur_white (h w : Nat) (hh : 1 ≤ h) (hw : 1 ≤ w) :
    gaussianBlur3 (whiteImg h w) = whiteImg h w := by
  have hpx : ∀ i j, i < h → j < w → blurPx (whiteImg h w) i j = 255 := by
    intro i j hi hj
    have hs : ∀ di dj : Int, -1 ≤ di → di ≤ 1 → -1 ≤ dj → dj ≤ 1 →
        blurSample (whiteImg h w) i j di dj = 255 := by
      intro di dj h1 h2 h3 h4
      unfold blurSample
      rw [whiteImg_h, whiteImg_w h w hh]
      refine whiteImg_px h w _ _ ?_ ?_
      · exact borderReflect101_lt h _ hh (by omega) (by omega)
      · exact borderReflect101_lt w _ hw (by omega) (by omega)
    unfold blurPx
    rw [hs (-1) (-1) (by omega) (by omega) (by omega) (by omega),
      hs (-1) 0 (by omega) (by omega) (by omega) (by omega),
      hs (-1) 1 (by omega) (by omega) (by omega) (by omega),
      hs 0 (-1) (by omega) (by omega) (by omega) (by omega),
      hs 0 0 (by omega) (by omega) (by omega) (by omega),
      hs 0 1 (by omega) (by omega) (by omega) (by omega),
      hs 1 (-1) (by omega) (by omega) (by omega) (by omega),
      hs 1 0 (by omega) (by omega) (by omega) (by omega),
      hs 1 1 (by omega) (by omega) (by omega) (by omega)]
  unfold gaussianBlur3 mkImg
  rw [whiteImg_h, whiteImg_w h w hh]
  show Img.mk _ = _
  unfold whiteImg
  congr 1
  refine map_range_const h _ _ ?_
  intro i hi
  refine map_range_const_nat w _ _ ?_
  intro j hj
  exact hpx i j hi hj

/-- Histogram of an all-white page: everything sits in bin 255. -/
theorem hist_white (h w v : Nat) :
    hist (whiteImg h w) v = if v = 255 then h * w else 0 := by
  unfold hist whiteImg
  rw [List.map_replicate]
  rw [List.sum_replicate]
  rw [List.count_replicate]
  simp only [beq_iff_eq, smul_eq_mul]
  by_cases hv : v = 255
  · simp [hv]
  · simp [hv, Ne.symm hv]

theorem frNorm_den_one (m : Int) : frNorm ⟨m, 1⟩ = ⟨m, 1⟩ := by
  unfold frNorm
  simp only
  rw [gcdF_eq _ _ _ (Nat.lt_succ_self _)]
  have : Int.toNat 1 = 1 := rfl
  rw [this, Nat.gcd_one_right]
  simp

theorem frDiv_zero_of_pos (n : Nat) (hn : 0 < n) :
    frDiv frZero (frOfNat n) = frZero := by
  unfold frDiv frDivR frOfNat frZero
  have h0 : (0 : Int) < (n : Int) := by exact_mod_cast hn
  simp only [h0, if_true]
  unfold frNorm
  simp only
  rw [gcdF_eq _ _ _ (Nat.lt_succ_self _)]
  simp only [Int.zero_mul, Int.natAbs_zero, Nat.gcd_zero_left, Int.one_mul]
  split
  · rename_i hg
    have hnn : ((n : Int)).toNat = n := by omega
    rw [hnn] at hg
    have h1 : n = 1 := by omega
    subst h1
    rfl
  · rename_i hg
    have hnn : ((n : Int)).toNat = n := by omega
    rw [hnn] at hg ⊢
    simp only [Int.zero_ediv]
    rw [Int.ediv_self (by omega)]

theorem frDiv_self_ofNat (n : Nat) (hn : 0 < n) :
    frDiv (frOfNat n) (frOfNat n) = frOne := by
  unfold frDiv frDivR frOfNat frOne
  have h0 : (0 : Int) < (n : Int) := by exact_mod_cast hn
  simp only [h0, if_true, Int.mul_one, Int.one_mul]
  unfold frNorm
  simp only
  rw [gcdF_eq _ _ _ (Nat.lt_succ_self _)]
  have h1 : ((n : Int)).natAbs = n := by omega
  have h2 : ((n : Int)).toNat = n := by omega
  rw [h1, h2, Nat.gcd_self]
  split
  · rename_i hg
    have : n = 1 := by omega
    subst this
    rfl
  · rw [Int.ediv_self (by omega)]

/-- An Otsu step on a zero-mass bin from the initial state is the
identity: the guard `min q1 q2 < FLT_EPSILON` fires. -/
theorem otsuStep_zero_bin (nf mu : Fr) (hst : Nat → Nat) (i : Nat)
    (hp : frDiv (frOfNat (hst i)) nf = frZero) :
    otsuStep nf mu hst ⟨frZero, frZero, frZero, 0⟩ i = ⟨frZero, frZero, frZero, 0⟩ := by
  unfold otsuStep
  rw [hp]
  rfl

/-- An Otsu step on a full-mass bin from the initial state only moves
`q1` to 1: the guard `max q1 q2 > 1 - FLT_EPSILON` fires. -/
theorem otsuStep_full_bin (nf mu : Fr) (hst : Nat → Nat) (i : Nat)
    (hp : frDiv (frOfNat (hst i)) nf = frOne) :
    otsuStep nf mu hst ⟨frZero, frZero, frZero, 0⟩ i = ⟨frOne, frZero, frZero, 0⟩ := by
  unfold otsuStep
  rw [hp]
  rfl

theorem foldl_fixpoint {α β : Type} (f : α → β → α) (a : α) (l : List β)
    (hf : ∀ x ∈ l, f a x = a) : l.foldl f a = a := by
  induction l with
  | nil => rfl
  | cons x xs ih =>
    rw [List.foldl_cons, hf x (List.mem_cons_self x xs)]
    exact ih (fun y hy => hf y (List.mem_cons_of_mem x hy))

/-- Otsu's threshold of an all-white page is 0: every candidate split is
degenerate, so the scan never updates the running maximum. -/
theorem otsu_white (h w : Nat) (hh : 1 ≤ h) (hw : 1 ≤ w) :
    otsuThreshold (whiteImg h w) = 0 := by
  have hhw : 0 < h * w := Nat.mul_pos hh hw
  set nf := frOfNat (h * w) with hnf
  set mu := frDiv (frOfNat (muSum (whiteImg h w) 0 256 0)) nf with hmu
  have hlo : ∀ x ∈ List.range' 0 255 1,
      otsuStep nf mu (hist (whiteImg h w)) ⟨frZero, frZero, frZero, 0⟩ x
        = ⟨frZero, frZero, frZero, 0⟩ := by
    intro x hx
    rw [List.mem_range'_1] at hx
    refine otsuStep_zero_bin _ _ _ _ ?_
    rw [hist_white]
    rw [if_neg (by omega)]
    rw [hnf]
    exact frDiv_zero_of_pos (h * w) hhw
  have hscan : otsuScan nf mu (whiteImg h w) 0 256 ⟨frZero, frZero, frZero, 0⟩
      = ⟨frOne, frZero, frZero, 0⟩ := by
    have hsplit := otsuScan_split nf mu (whiteImg h w) 0 255 1 ⟨frZero, frZero, frZero, 0⟩
    rw [show (255 + 1 : Nat) = 256 from rfl] at hsplit
    rw [hsplit]
    have hpre : otsuScan nf mu (whiteImg h w) 0 255 ⟨frZero, frZero, frZero, 0⟩
        = ⟨frZero, frZero, frZero, 0⟩ := by
      unfold otsuScan
      exact foldl_fixpoint _ _ _ hlo
    rw [hpre]
    show List.foldl _ _ (List.range' 255 1 1) = _
    rw [show List.range' 255 1 1 = [255] from rfl, List.foldl_cons, List.foldl_nil]
    refine otsuStep_full_bin _ _ _ _ ?_
    rw [hist_white, if_pos rfl, hnf]
    exact frDiv_self_ofNat (h * w) hhw
  rw [otsuThreshold_eq]
  rw [whiteImg_h, whiteImg_w h w hh, ← hnf, ← hmu, hscan]
  rfl

/-- Binarizing an all-white page leaves it all white (threshold 0, every
pixel strictly above). -/
theorem applyOtsu_white (h w : Nat) (hh : 1 ≤ h) (hw : 1 ≤ w) :
    applyOtsu (whiteImg h w) = whiteImg h w := by
  rw [applyOtsu_shape, otsu_white h w hh hw]
  rw [whiteImg_h, whiteImg_w h w hh]
  show mkImg h w _ = Img.mk (List.replicate h (List.replicate w 255))
  unfold mkImg
  congr 1
  refine map_range_const h _ _ ?_
  intro i hi
  refine map_range_const_nat w _ _ ?_
  intro j hj
  show (if 0 < (whiteImg h w).px i j then 255 else 0) = 255
  rw [whiteImg_px h w i j hi hj]
  rfl

theorem threshOf_white (h w : Nat) (hh : 1 ≤ h) (hw : 1 ≤ w) :
    threshOf (whiteImg h w) = whiteImg h w := by
  unfold threshOf
  rw [blur_white h w hh hw, applyOtsu_white h w hh hw]

/-!
### The minimum-area rectangle of a full grid is axis-aligned

An all-white page binarizes (threshold 0) to all-foreground, so the
deskew step sees the full `h x w` grid of coordinates; the scan keeps
the axis-aligned seed direction and the corrected rotation is zero.
-/

theorem foldl_max_mem (xs : List Int) (x : Int) :
    xs.foldl max x = x ∨ xs.foldl max x ∈ xs := by
  induction xs generalizing x with
  | nil => left; rfl
  | cons y ys ih =>
    rw [List.foldl_cons]
    rcases ih (max x y) with hc | hc
    · rw [hc]
      rcases le_total x y with hxy | hxy
      · right
        rw [max_eq_right hxy]
        exact List.mem_cons_self y ys
      · left
        exact max_eq_left hxy
    · right
      exact List.mem_cons_of_mem y hc

theorem le_foldl_max (xs : List Int) (x : Int) : x ≤ xs.foldl max x := by
  induction xs generalizing x with
  | nil => exact le_refl x
  | cons y ys ih =>
    rw [List.foldl_cons]
    exact le_trans (le_max_left x y) (ih (max x y))

theorem mem_le_foldl_max (xs : List Int) (x z : Int) (hz : z ∈ xs) :
    z ≤ xs.foldl max x := by
  induction xs generalizing x with
  | nil => cases hz
  | cons y ys ih =>
    rw [List.foldl_cons]
    rcases List.mem_cons.mp hz with hc | hc
    · subst hc
      exact le_trans (le_max_right x z) (le_foldl_max ys (max x z))
    · exact ih (max x y) hc

theorem listMax_eq_of (l : List Int) (M : Int) (hmem : M ∈ l)
    (hub : ∀ x ∈ l, x ≤ M) : listMax l = M := by
  cases l with
  | nil => cases hmem
  | cons x xs =>
    rw [show listMax (x :: xs) = xs.foldl max x from rfl]
    refine le_antisymm ?_ ?_
    · rcases foldl_max_mem xs x with hc | hc
      · rw [hc]
        exact hub x (List.mem_cons_self x xs)
      · exact hub _ (List.mem_cons_of_mem x hc)
    · rcases List.mem_cons.mp hmem with hc | hc
      · subst hc
        exact le_foldl_max xs M
      · exact mem_le_foldl_max xs x M hc

theorem foldl_min_mem (xs : List Int) (x : Int) :
    xs.foldl min x = x ∨ xs.foldl min x ∈ xs := by
  induction xs generalizing x with
  | nil => left; rfl
  | cons y ys ih =>
    rw [List.foldl_cons]
    rcases ih (min x y) with hc | hc
    · rw [hc]
      rcases le_total x y with hxy | hxy
      · left
        exact min_eq_left hxy
      · right
        rw [min_eq_right hxy]
        exact List.mem_cons_self y ys
    · right
      exact List.mem_cons_of_mem y hc

theorem foldl_min_le (xs : List Int) (x : Int) : xs.foldl min x ≤ x := by
  induction xs generalizing x with
  | nil => exact le_refl x
  | cons y ys ih =>
    rw [List.foldl_cons]
    exact le_trans (ih (min x y)) (min_le_left x y)

theorem foldl_min_le_mem (xs : List Int) (x z : Int) (hz : z ∈ xs) :
    xs.foldl min x ≤ z := by
  induction xs generalizing x with
  | nil => cases hz
  | cons y ys ih =>
    rw [List.foldl_cons]
    rcases List.mem_cons.mp hz with hc | hc
    · subst hc
      exact le_trans (foldl_min_le ys (min x z)) (min_le_right x z)
    · exact ih (min x y) hc

theorem listMin_eq_of (l : List Int) (m : Int) (hmem : m ∈ l)
    (hlb : ∀ x ∈ l, m ≤ x) : listMin l = m := by
  cases l with
  | nil => cases hmem
  | cons x xs =>
    rw [show listMin (x :: xs) = xs.foldl min x from rfl]
    refine le_antisymm ?_ ?_
    · rcases List.mem_cons.mp hmem with hc | hc
      · subst hc
        exact foldl_min_le xs m
      · exact foldl_min_le_mem xs x m hc
    · rcases foldl_min_mem xs x with hc | hc
      · rw [hc]
        exact hlb x (List.mem_cons_self x xs)
      · exact hlb _ (List.mem_cons_of_mem x hc)

/-- The foreground coordinates of an all-white page are the full grid. -/
theorem mem_coords_white (h w : Nat) (hh : 1 ≤ h) (p : Int × Int) :
    p ∈ coordsOf (whiteImg h w)
      ↔ ∃ i, i < h ∧ ∃ j, j < w ∧ p = ((i : Int), (j : Int)) := by
  unfold coordsOf
  rw [whiteImg_h, whiteImg_w h w hh]
  simp only [List.mem_flatMap, List.mem_filterMap, List.mem_range]
  constructor
  · rintro ⟨i, hi, j, hj, hp⟩
    rw [whiteImg_px h w i j hi hj,
      if_pos (show (0 : Nat) < 255 from by decide)] at hp
    injection hp with hp2
    exact ⟨i, hi, j, hj, hp2.symm⟩
  · rintro ⟨i, hi, j, hj, rfl⟩
    refine ⟨i, hi, j, hj, ?_⟩
    rw [whiteImg_px h w i j hi hj, if_pos (show (0 : Nat) < 255 from by decide)]

theorem bound_hi (i a n : Int) (h0 : 0 ≤ i) (h1 : i ≤ n) :
    i * a ≤ (if 0 ≤ a then n * a else 0) := by
  split
  · rename_i ha
    exact mul_le_mul_of_nonneg_right h1 ha
  · rename_i ha
    push_neg at ha
    exact mul_nonpos_of_nonneg_of_nonpos h0 ha.le

theorem bound_lo (i a n : Int) (h0 : 0 ≤ i) (h1 : i ≤ n) :
    (if 0 ≤ a then 0 else n * a) ≤ i * a := by
  split
  · rename_i ha
    exact mul_nonneg h0 ha
  · rename_i ha
    push_neg at ha
    exact mul_le_mul_of_nonpos_right h1 ha.le

/-- Largest value of `i*a + j*b` over the full grid. -/
theorem listMax_dot_grid (h w : Nat) (hh : 1 ≤ h) (hw : 1 ≤ w) (a b : Int) :
    listMax ((coordsOf (whiteImg h w)).map (fun p => dotP p (a, b)))
      = (if 0 ≤ a then ((h : Int) - 1) * a else 0)
        + (if 0 ≤ b then ((w : Int) - 1) * b else 0) := by
  refine listMax_eq_of _ _ ?_ ?_
  · rw [List.mem_map]
    refine ⟨(((if 0 ≤ a then h - 1 else 0 : Nat) : Int),
      ((if 0 ≤ b then w - 1 else 0 : Nat) : Int)), ?_, ?_⟩
    · rw [mem_coords_white h w hh]
      exact ⟨(if 0 ≤ a then h - 1 else 0), by split <;> omega,
        (if 0 ≤ b then w - 1 else 0), by split <;> omega, rfl⟩
    · show ((if 0 ≤ a then h - 1 else 0 : Nat) : Int) * a
          + ((if 0 ≤ b then w - 1 else 0 : Nat) : Int) * b = _
      rcases le_or_lt 0 a with ha | ha <;> rcases le_or_lt 0 b with hb | hb
      · rw [if_pos ha, if_pos hb, if_pos ha, if_pos hb,
          show ((h - 1 : Nat) : Int) = (h : Int) - 1 from by omega,
          show ((w - 1 : Nat) : Int) = (w : Int) - 1 from by omega]
      · rw [if_pos ha, if_neg (not_le.mpr hb), if_pos ha, if_neg (not_le.mpr hb),
          show ((h - 1 : Nat) : Int) = (h : Int) - 1 from by omega]
        norm_num
      · rw [if_neg (not_le.mpr ha), if_pos hb, if_neg (not_le.mpr ha), if_pos hb,
          show ((w - 1 : Nat) : Int) = (w : Int) - 1 from by omega]
        norm_num
      · rw [if_neg (not_le.mpr ha), if_neg (not_le.mpr hb),
          if_neg (not_le.mpr ha), if_neg (not_le.mpr hb)]
        norm_num
  · intro x hx
    rw [List.mem_map] at hx
    obtain ⟨p, hp, rfl⟩ := hx
    rw [mem_coords_white h w hh] at hp
    obtain ⟨i, hi, j, hj, rfl⟩ := hp
    show (i : Int) * a + (j : Int) * b ≤ _
    exact add_le_add
      (bound_hi (i : Int) a ((h : Int) - 1) (by positivity) (by omega))
      (bound_hi (j : Int) b ((w : Int) - 1) (by positivity) (by omega))

/-- Smallest value of `i*a + j*b` over the full grid. -/
theorem listMin_dot_grid (h w : Nat) (hh : 1 ≤ h) (hw : 1 ≤ w) (a b : Int) :
    listMin ((coordsOf (whiteImg h w)).map (fun p => dotP p (a, b)))
      = (if 0 ≤ a then 0 else ((h : Int) - 1) * a)
        + (if 0 ≤ b then 0 else ((w : Int) - 1) * b) := by
  refine listMin_eq_of _ _ ?_ ?_
  · rw [List.mem_map]
    refine ⟨(((if 0 ≤ a then 0 else h - 1 : Nat) : Int),
      ((if 0 ≤ b then 0 else w - 1 : Nat) : Int)), ?_, ?_⟩
    · rw [mem_coords_white h w hh]
      exact ⟨(if 0 ≤ a then 0 else h - 1), by split <;> omega,
        (if 0 ≤ b then 0 else w - 1), by split <;> omega, rfl⟩
    · show ((if 0 ≤ a then 0 else h - 1 : Nat) : Int) * a
          + ((if 0 ≤ b then 0 else w - 1 : Nat) : Int) * b = _
      rcases le_or_lt 0 a with ha | ha <;> rcases le_or_lt 0 b with hb | hb
      · rw [if_pos ha, if_pos hb, if_pos ha, if_pos hb]
        norm_num
      · rw [if_pos ha, if_neg (not_le.mpr hb), if_pos ha, if_neg (not_le.mpr hb),
          show ((w - 1 : Nat) : Int) = (w : Int) - 1 from by omega]
        norm_num
      · rw [if_neg (not_le.mpr ha), if_pos hb, if_neg (not_le.mpr ha), if_pos hb,
          show ((h - 1 : Nat) : Int) = (h : Int) - 1 from by omega]
        norm_num
      · rw [if_neg (not_le.mpr ha), if_neg (not_le.mpr hb),
          if_neg (not_le.mpr ha), if_neg (not_le.mpr hb),
          show ((h - 1 : Nat) : Int) = (h : Int) - 1 from by omega,
          show ((w - 1 : Nat) : Int) = (w : Int) - 1 from by omega]
  · intro x hx
    rw [List.mem_map] at hx
    obtain ⟨p, hp, rfl⟩ := hx
    rw [mem_coords_white h w hh] at hp
    obtain ⟨i, hi, j, hj, rfl⟩ := hp
    show _ ≤ (i : Int) * a + (j : Int) * b
    exact add_le_add
      (bound_lo (i : Int) a ((h : Int) - 1) (by positivity) (by omega))
      (bound_lo (j : Int) b ((w : Int) - 1) (by positivity) (by omega))

/-- Extent of the full grid along a direction. -/
theorem spreadDot_grid (h w : Nat) (hh : 1 ≤ h) (hw : 1 ≤ w) (a b : Int) :
    spreadDot (coordsOf (whiteImg h w)) (a, b)
      = ((h : Int) - 1) * |a| + ((w : Int) - 1) * |b| := by
  unfold spreadDot
  rw [listMax_dot_grid h w hh hw a b, listMin_dot_grid h w hh hw a b]
  rcases le_or_lt 0 a with ha | ha <;> rcases le_or_lt 0 b with hb | hb
  · rw [if_pos ha, if_pos hb, if_pos ha, if_pos hb,
      abs_of_nonneg ha, abs_of_nonneg hb]
    ring
  · rw [if_pos ha, if_neg (not_le.mpr hb), if_pos ha, if_neg (not_le.mpr hb),
      abs_of_nonneg ha, abs_of_neg hb]
    ring
  · rw [if_neg (not_le.mpr ha), if_pos hb, if_neg (not_le.mpr ha), if_pos hb,
      abs_of_neg ha, abs_of_nonneg hb]
    ring
  · rw [if_neg (not_le.mpr ha), if_neg (not_le.mpr hb),
      if_neg (not_le.mpr ha), if_neg (not_le.mpr hb),
      abs_of_neg ha, abs_of_neg hb]
    ring

theorem spreadCross_as_dot (pts : List (Int × Int)) (a b : Int) :
    spreadCross pts (a, b) = spreadDot pts (b, -a) := by
  unfold spreadCross spreadDot
  have hm : pts.map (fun p => crossP p (a, b)) = pts.map (fun p => dotP p (b, -a)) := by
    refine List.map_congr_left ?_
    intro p hp
    show p.1 * b - p.2 * a = p.1 * b + p.2 * (-a)
    ring
  rw [hm]

/-- Scaled area of the grid's bounding rectangle for a side direction. -/
theorem areaSc_grid (h w : Nat) (hh : 1 ≤ h) (hw : 1 ≤ w) (a b : Int) :
    areaSc (coordsOf (whiteImg h w)) (a, b)
      = (((h : Int) - 1) * |a| + ((w : Int) - 1) * |b|)
        * (((h : Int) - 1) * |b| + ((w : Int) - 1) * |a|) := by
  unfold areaSc
  rw [spreadDot_grid h w hh hw a b, spreadCross_as_dot, spreadDot_grid h w hh hw b (-a),
    abs_neg]

/-- No direction beats the axis-aligned seed on the full grid. -/
theorem grid_no_better (h w : Nat) (hh : 1 ≤ h) (hw : 1 ≤ w) (d : Int × Int) :
    areaLtB (coordsOf (whiteImg h w)) d (0, 1) = false := by
  obtain ⟨a, b⟩ := d
  unfold areaLtB
  refine decide_eq_false ?_
  rw [not_lt]
  rw [show norm2 ((0 : Int), (1 : Int)) = 1 from by decide,
    show norm2 (a, b) = a * a + b * b from rfl,
    areaSc_grid h w hh hw a b, areaSc_grid h w hh hw 0 1]
  simp only [abs_zero, abs_one, mul_zero, mul_one, zero_add, add_zero]
  rw [show a * a = |a| * |a| from (abs_mul_abs_self a).symm,
    show b * b = |b| * |b| from (abs_mul_abs_self b).symm]
  have hH : (0 : Int) ≤ (h : Int) - 1 := by omega
  have hW : (0 : Int) ≤ (w : Int) - 1 := by omega
  nlinarith [mul_nonneg (abs_nonneg a) (abs_nonneg b), hH, hW,
    mul_nonneg (mul_nonneg (abs_nonneg a) (abs_nonneg b))
      (add_nonneg (mul_self_nonneg ((h : Int) - 1)) (mul_self_nonneg ((w : Int) - 1)))]

/-- The scan over the full grid keeps the axis-aligned direction. -/
theorem bestDir_grid (h w : Nat) (hh : 1 ≤ h) (hw : 1 ≤ w) :
    bestDir (coordsOf (whiteImg h w)) = (0, 1) := by
  unfold bestDir dirScan
  refine foldl_fixpoint _ _ _ ?_
  intro d hd
  show (if areaLtB (coordsOf (whiteImg h w)) d (0, 1) then d else (0, 1)) = (0, 1)
  rw [grid_no_better h w hh hw d]
  rfl

/-!
### The zero-angle rotation is the identity warp

On the full grid the reported rectangle direction is `(0, -1)` (angle
-90), the corrected rotation is 0, and the cubic warp with the identity
map reproduces every pixel exactly.
-/

theorem frMul_one_ofNat (k : Nat) : frMul frOne (frOfNat k) = frOfNat k := by
  unfold frMul frMulR frOne frOfNat
  simp only [Int.one_mul]
  exact frNorm_den_one (k : Int)

theorem frMul_zero_ofNat (k : Nat) : frMul frZero (frOfNat k) = frZero := by
  unfold frMul frMulR frZero frOfNat
  simp only [Int.zero_mul, Int.one_mul]
  rfl

theorem frAdd_ofNat_zero (k : Nat) : frAdd (frOfNat k) frZero = frOfNat k := by
  unfold frAdd frAddR frZero frOfNat
  simp only [Int.mul_one, Int.zero_mul, Int.add_zero, Int.one_mul]
  exact frNorm_den_one (k : Int)

theorem frAdd_zero_ofNat (k : Nat) : frAdd frZero (frOfNat k) = frOfNat k := by
  unfold frAdd frAddR frZero frOfNat
  simp only [Int.zero_mul, Int.mul_one, Int.one_mul, Int.zero_add]
  exact frNorm_den_one (k : Int)

theorem frFloor_ofNat (k : Nat) : frFloor (frOfNat k) = (k : Int) := by
  unfold frFloor frOfNat
  exact Int.ediv_one _

theorem frSub_ofNat_self (k : Nat) : frSub (frOfNat k) (frOfInt (k : Int)) = frZero := by
  unfold frSub frSubR frOfNat frOfInt
  simp only [Int.mul_one, Int.sub_self, Int.one_mul]
  rfl

/-- `getRotationMatrix2D` at angle 0 is the identity affine map. -/
theorem rotMat_id (cx cy : Nat) :
    rotMat (frOfNat cx) (frOfNat cy) frOne frZero
      = ⟨frOne, frZero, frZero, frZero, frOne, frZero⟩ := by
  unfold rotMat
  rw [show frSub frOne frOne = frZero from by decide,
    frMul_zero_ofNat cx, frMul_zero_ofNat cy,
    show frSub frZero frZero = frZero from by decide,
    show frNeg frZero = frZero from by decide,
    show frAdd frZero frZero = frZero from by decide]

/-- The corrected rotation for the grid's reported direction, pushed
through `getRotationMatrix2D`: the identity map. -/
theorem deskew_rot_white (cx cy : Nat) :
    rotMat (frOfNat cx) (frOfNat cy)
      (deskewCS (⟨0, 1⟩, ⟨-1, 1⟩)).1 (deskewCS (⟨0, 1⟩, ⟨-1, 1⟩)).2
      = ⟨frOne, frZero, frZero, frZero, frOne, frZero⟩ := by
  rw [show (deskewCS (⟨0, 1⟩, ⟨-1, 1⟩)).1 = frOne from by decide,
    show (deskewCS (⟨0, 1⟩, ⟨-1, 1⟩)).2 = frZero from by decide]
  exact rotMat_id cx cy

theorem clampIdx_lt (n : Nat) (t : Int) (hn : 1 ≤ n) : clampIdx n t < n := by
  unfold clampIdx
  have h2 : (0 : Int) ≤ max 0 (min ((n : Int) - 1) t) := le_max_left _ _
  have h3 : max 0 (min ((n : Int) - 1) t) ≤ (n : Int) - 1 := by
    have h1 : min ((n : Int) - 1) t ≤ (n : Int) - 1 := min_le_left _ _
    rcases max_choice (0 : Int) (min ((n : Int) - 1) t) with hc | hc <;> rw [hc] <;> omega
  omega

/-- One pixel of the identity warp of the white page. -/
theorem warpPx_white (h w : Nat) (hh : 1 ≤ h) (hw : 1 ≤ w) (i j : Nat) :
    warpPx (whiteImg h w) ⟨frOne, frZero, frZero, frZero, frOne, frZero⟩ i j = 255 := by
  have hpx : ∀ ti tj : Int,
      (whiteImg h w).px (clampIdx (whiteImg h w).h ti) (clampIdx (whiteImg h w).w tj)
        = 255 := by
    intro ti tj
    rw [whiteImg_h, whiteImg_w h w hh]
    exact whiteImg_px h w _ _ (clampIdx_lt h ti hh) (clampIdx_lt w tj hw)
  simp only [warpPx]
  simp only [frMul_one_ofNat, frMul_zero_ofNat, frAdd_ofNat_zero, frAdd_zero_ofNat,
    frFloor_ofNat, frSub_ofNat_self, hpx]
  rw [show cubicW (frAdd frOne frZero) = (⟨0, 1⟩ : Fr) from by decide,
    show cubicW frZero = (⟨1, 1⟩ : Fr) from by decide,
    show cubicW (frSub frOne frZero) = (⟨0, 1⟩ : Fr) from by decide,
    show cubicW (frSub ⟨2, 1⟩ frZero) = (⟨0, 1⟩ : Fr) from by decide]
  rw [show frAdd (frAdd (frMul (⟨0, 1⟩ : Fr) (frOfNat 255)) (frMul (⟨1, 1⟩ : Fr) (frOfNat 255)))
      (frAdd (frMul (⟨0, 1⟩ : Fr) (frOfNat 255)) (frMul (⟨0, 1⟩ : Fr) (frOfNat 255)))
      = (⟨255, 1⟩ : Fr) from by decide]
  rw [show frMul (⟨0, 1⟩ : Fr) (⟨255, 1⟩ : Fr) = (⟨0, 1⟩ : Fr) from by decide,
    show frMul (⟨1, 1⟩ : Fr) (⟨255, 1⟩ : Fr) = (⟨255, 1⟩ : Fr) from by decide]
  rw [show frAdd (frAdd (⟨0, 1⟩ : Fr) (⟨255, 1⟩ : Fr)) (frAdd (⟨0, 1⟩ : Fr) (⟨0, 1⟩ : Fr))
      = (⟨255, 1⟩ : Fr) from by decide]
  decide

/-- The identity warp reproduces the white page. -/
theorem warp_white (h w : Nat) (hh : 1 ≤ h) (hw : 1 ≤ w) :
    warpAffineCubic (whiteImg h w) ⟨frOne, frZero, frZero, frZero, frOne, frZero⟩
      = whiteImg h w := by
  unfold warpAffineCubic
  rw [whiteImg_h, whiteImg_w h w hh]
  show mkImg h w _ = Img.mk (List.replicate h (List.replicate w 255))
  unfold mkImg
  congr 1
  refine map_range_const h _ _ ?_
  intro i hi
  refine map_range_const_nat w _ _ ?_
  intro j hj
  exact warpPx_white h w hh hw i j

/-- C8: normalizing an all-white page never leaves the model's domain and
returns the all-white page itself (the full-grid minimum rectangle is
axis-aligned at the conventional -90 degrees, giving a zero corrected
rotation); and whenever the binarized image has no foreground pixels the
deskew estimation and rotation are skipped and the binarized image is
returned directly. -/
theorem preprocess_image_deskew (img : Img) (cs : Fr × Fr)
    (hne : (coordsOf (threshOf img)).isEmpty = false)
    (hdu : dirUnit (ocvDir (bestDir (coordsOf (threshOf img)))) = some cs) :
    preprocess_image img = some (warpAffineCubic (threshOf img)
      (invAff (rotMat (frOfNat ((threshOf img).w / 2)) (frOfNat ((threshOf img).h / 2))
        (deskewCS cs).1 (deskewCS cs).2))) := by
  simp only [preprocess_image, hne, Bool.false_eq_true, if_false, hdu]

theorem C8_blank_page (h w : Nat) (hh : 1 ≤ h) (hw : 1 ≤ w) :
    preprocess_image (whiteImg h w) = some (whiteImg h w)
      ∧ ∀ img : Img, (coordsOf (threshOf img)).isEmpty = true
          → preprocess_image img = some (threshOf img) := by
  constructor
  · have ht := threshOf_white h w hh hw
    have hne : (coordsOf (threshOf (whiteImg h w))).isEmpty = false := by
      rw [ht]
      have hm : ((0 : Int), (0 : Int)) ∈ coordsOf (whiteImg h w) := by
        rw [mem_coords_white h w hh]
        exact ⟨0, hh, 0, hw, rfl⟩
      cases hl : coordsOf (whiteImg h w) with
      | nil => rw [hl] at hm; cases hm
      | cons p l => rfl
    have hdu : dirUnit (ocvDir (bestDir (coordsOf (threshOf (whiteImg h w)))))
        = some ((⟨0, 1⟩ : Fr), (⟨-1, 1⟩ : Fr)) := by
      rw [ht, bestDir_grid h w hh hw]
      decide
    rw [preprocess_image_deskew (whiteImg h w) (⟨0, 1⟩, ⟨-1, 1⟩) hne hdu]
    rw [ht]
    rw [whiteImg_h, whiteImg_w h w hh]
    rw [deskew_rot_white (w / 2) (h / 2)]
    rw [show invAff ⟨frOne, frZero, frZero, frZero, frOne, frZero⟩
        = ⟨frOne, frZero, frZero, frZero, frOne, frZero⟩ from by decide]
    rw [warp_white h w hh hw]
  · intro img hempty
    simp only [preprocess_image, hempty, if_true]

/-- Witness for C8 at the 2x2 white page. -/
theorem C8_blank_page_witness :
    1 ≤ 2 ∧ 1 ≤ 2
      ∧ (preprocess_image (whiteImg 2 2) = some (whiteImg 2 2)
        ∧ ∀ img : Img, (coordsOf (threshOf img)).isEmpty = true
            → preprocess_image img = some (threshOf img)) :=
  ⟨by decide, by decide, C8_blank_page 2 2 (by decide) (by decide)⟩
